import Mathlib

/-!
# Verification of the `enthrall` master control plane (main.c)

A shallow embedding of the master-side control plane of the
keyboard/mouse/clipboard multiplexer: the scheduled-call and
scheduled-message queues, the per-remote connection lifecycle
(`setup_remote`, `fail_remote`, `disconnect_remote`), the focus
state machine (`focus_node`, `focus_master`, `focus_neighbor`),
clipboard/modifier transfer, brightness transitions, the edge-event
detector, and message dispatch (`handle_message`).

Modelling conventions:
* machine integers (`uint64_t` times, counters) are `Nat`;
* C `float` values (brightness levels, screen-relative coordinates)
  are modelled as exact rationals `ℚ`; the cast `(uint64_t)(f)` is
  the rational floor;
* remotes are identified by their index into the configuration's
  remote list; the global mutable state of main.c is a `State`
  record and each C function is a state transformer;
* functions that can recurse through the `enqueue_message` →
  `fail_remote` → `focus_master` → `focus_node` → `enqueue_message`
  cycle take a fuel argument and return `Option State`; `none`
  (fuel exhaustion) never occurs on the runs the theorems speak
  about;
* code of the repository that is not under src/ (types.h, proto.h,
  msgchan.c, the platform driver) is modelled from the spec where it
  matters; each such definition carries a comment saying so.
-/

/-- Connection states of a remote (spec §3; values used throughout main.c). -/
inductive connstate : Type
  | CS_SETTINGUP
  | CS_CONNECTED
  | CS_FAILED
  | CS_PERMFAILED
  deriving DecidableEq, Repr

export connstate (CS_SETTINGUP CS_CONNECTED CS_FAILED CS_PERMFAILED)

/-- The four screen-edge directions.  Modelled from the spec: the enum lives
in types.h (not in src/); the order is irrelevant to the claims. -/
inductive direction_t : Type
  | LEFT
  | RIGHT
  | UP
  | DOWN
  deriving DecidableEq, Repr

export direction_t (LEFT RIGHT UP DOWN)

/-- Bit index of a direction in an edge mask (`dirmask = 1U << dir`). -/
def direction_t.idx : direction_t → Nat
  | LEFT => 0
  | RIGHT => 1
  | UP => 2
  | DOWN => 3

/-- Edge-event types (ARRIVE = pointer reaches the edge band, DEPART =
it leaves it).  Modelled from the spec: enum in types.h (not in src/). -/
inductive edgeevent_t : Type
  | EE_DEPART
  | EE_ARRIVE
  deriving DecidableEq, Repr

export edgeevent_t (EE_DEPART EE_ARRIVE)

/-- Message types of the wire protocol (proto.h is not in src/; the
constructors are the ones main.c uses, listed in spec §6). -/
inductive msgtype : Type
  | MT_SETUP
  | MT_READY
  | MT_KEYEVENT
  | MT_MOVEREL
  | MT_CLICKEVENT
  | MT_SETMOUSEPOSSCREENREL
  | MT_GETCLIPBOARD
  | MT_SETCLIPBOARD
  | MT_SETBRIGHTNESS
  | MT_EDGEMASKCHANGE
  | MT_LOGMSG
  deriving DecidableEq, Repr

export msgtype (MT_SETUP MT_READY MT_KEYEVENT MT_MOVEREL MT_CLICKEVENT
  MT_SETMOUSEPOSSCREENREL MT_GETCLIPBOARD MT_SETCLIPBOARD MT_SETBRIGHTNESS
  MT_EDGEMASKCHANGE MT_LOGMSG)

/-- Press/release flag of key and click events. -/
inductive pressrel_t : Type
  | PR_PRESS
  | PR_RELEASE
  deriving DecidableEq, Repr

export pressrel_t (PR_PRESS PR_RELEASE)

/-- A wire message.  The C `struct message` carries a type tag and a
union of payloads plus an optional extra buffer and a send-time used
for scheduled messages; here the union is flattened into one record
with defaulted fields. -/
structure Message : Type where
  type : msgtype
  sendtime : Nat := 0
  brightness : ℚ := 0
  xpos : ℚ := 0
  ypos : ℚ := 0
  keycode : Nat := 0
  pressrel : pressrel_t := PR_PRESS
  oldmask : Nat := 0
  newmask : Nat := 0
  buf : String := ""
  deriving DecidableEq, Repr

/-- A node reference (`struct noderef`): none, the master, a resolved
remote (an index into the remote list), or a still-unresolved name. -/
inductive noderef : Type
  | NT_NONE
  | NT_MASTER
  | NT_REMOTE (node : Nat)
  | NT_REMOTE_TMPNAME (name : String)
  deriving DecidableEq, Repr

export noderef (NT_NONE NT_MASTER NT_REMOTE NT_REMOTE_TMPNAME)

/-- A direction-indexed quadruple (C arrays indexed by `direction_t`). -/
structure dirmap (α : Type) : Type where
  left : α
  right : α
  up : α
  down : α
  deriving DecidableEq, Repr

/-- Read a direction slot. -/
def dirmap.get {α : Type} (m : dirmap α) : direction_t → α
  | LEFT => m.left
  | RIGHT => m.right
  | UP => m.up
  | DOWN => m.down

/-- Write a direction slot. -/
def dirmap.set {α : Type} (m : dirmap α) : direction_t → α → dirmap α
  | LEFT, v => { m with left := v }
  | RIGHT, v => { m with right := v }
  | UP, v => { m with up := v }
  | DOWN, v => { m with down := v }

/-- Build a constant `dirmap`. -/
def dirmap.const {α : Type} (v : α) : dirmap α := ⟨v, v, v, v⟩

/-- Length of the per-direction edge-event ring.  Modelled from the spec:
`EDGESTATE_HISTLEN` is defined in types.h (not in src/); the spec mandates
a ring of fixed length at least 6. -/
def EDGESTATE_HISTLEN : Nat := 6

/-- Per-direction edge-event history: a ring of event timestamps, the
index of the most recent entry, and the type of the last recorded event
(`struct edge_state`, types.h; fields as used by main.c). -/
structure edge_state : Type where
  evidx : Nat
  event_times : List Nat
  last_evtype : edgeevent_t
  deriving DecidableEq, Repr

/-- A fresh edge history: zeroed ring.  Modelled from the spec: the C
struct is zero-initialized; the zero value of `edgeevent_t` is taken to
be `EE_DEPART` (the pointer starts away from every edge). -/
def init_edge_state : edge_state :=
  { evidx := 0, event_times := List.replicate EDGESTATE_HISTLEN 0,
    last_evtype := EE_DEPART }

/-- A pixel position on the master display (`struct xypoint`). -/
structure xypoint : Type where
  x : Int
  y : Int
  deriving DecidableEq, Repr

/-- The platform driver's screen-center point (x11.c computes the display
center; the concrete value is irrelevant to the claims). -/
def screen_center : xypoint := ⟨512, 384⟩

/-- One remote (`struct remote`), restricted to the fields the control
plane reads and writes.  `msgchan` is the outbound send queue of the
remote's message channel; `neighbors` and `edgehist` are the
direction-indexed neighbor slots and edge-event histories. -/
structure Remote : Type where
  state : connstate
  failcount : Nat
  next_reconnect_time : Nat
  scheduled_messages : List Message
  msgchan : List Message
  neighbors : dirmap noderef
  edgehist : dirmap edge_state
  sshpid : Int
  deriving DecidableEq, Repr

/-- Focus-hint kinds (`FH_NONE`, `FH_DIM_INACTIVE`, `FH_FLASH_ACTIVE`). -/
inductive fh_t : Type
  | FH_NONE
  | FH_DIM_INACTIVE
  | FH_FLASH_ACTIVE
  deriving DecidableEq, Repr

export fh_t (FH_NONE FH_DIM_INACTIVE FH_FLASH_ACTIVE)

/-- The focus-hint configuration (`struct focus_hint`). -/
structure focus_hint : Type where
  type : fh_t
  brightness : ℚ
  duration : Nat
  fade_steps : Nat
  deriving DecidableEq, Repr

/-- Mouse-switch kinds.  main.c tests `MS_MULTITAP`; the spec's config
section implies an "off" kind, modelled as `MS_NONE`. -/
inductive ms_t : Type
  | MS_NONE
  | MS_MULTITAP
  deriving DecidableEq, Repr

export ms_t (MS_NONE MS_MULTITAP)

/-- The mouse-switch configuration (tap count `num`, window in μs). -/
structure mouseswitch_cfg : Type where
  type : ms_t
  num : Nat
  window : Nat
  deriving DecidableEq, Repr

/-- show-nullswitch policy (`NS_YES`, `NS_HOTKEYONLY`; the "off" value is
modelled as `NS_NO`; cfg-parse is not in src/). -/
inductive ns_t : Type
  | NS_NO
  | NS_YES
  | NS_HOTKEYONLY
  deriving DecidableEq, Repr

export ns_t (NS_NO NS_YES NS_HOTKEYONLY)

/-- The immutable configuration (`struct config`), restricted to what the
control plane reads.  `send_backlog` is the bounded outbound-backlog
quota of a message channel; modelled from the spec: msgchan.c is not in
src/, the spec says the quota is bounded and implementation-defined, so
it is a configuration parameter here. -/
structure Config : Type where
  show_nullswitch : ns_t
  focus_hint : focus_hint
  mouseswitch : mouseswitch_cfg
  master_neighbors : dirmap noderef
  send_backlog : Nat
  deriving DecidableEq, Repr

namespace GenSched

/-- A scheduled call (`struct scheduled_call`): a callback of an arbitrary
type `α` (the C code stores a function pointer and an opaque argument)
and its fire time. -/
structure gcall (α : Type) : Type where
  fn : α
  calltime : Nat
  deriving DecidableEq, Repr

/-- `schedule_call` (main.c:69-87): insert into the time-ordered list,
in front of the first entry whose `calltime` is strictly greater —
i.e. after all entries with time ≤ the new entry's time. -/
def schedule_call {α : Type} (newcall : gcall α) : List (gcall α) → List (gcall α)
  | [] => [newcall]
  | call :: rest =>
    if newcall.calltime < call.calltime then newcall :: call :: rest
    else call :: schedule_call newcall rest

/-- `run_scheduled_calls` (main.c:89-99) with the callback semantics made
explicit: invoking a callback `a` schedules the calls `env a` (the only
scheduler-visible effect a callback can have is to call `schedule_call`).
Each due head is removed from the queue *before* its callback runs; the
loop then re-examines the updated queue, so calls inserted by a callback
participate in the same pass.  Returns the fired calls in firing order
and the final queue; `none` on fuel exhaustion (a callback chain that
keeps scheduling due calls loops forever in the C code too). -/
def run_scheduled_calls {α : Type} (env : α → List (gcall α)) :
    Nat → List (gcall α) → Nat → Option (List (gcall α) × List (gcall α))
  | 0, _, _ => none
  | fuel + 1, queue, when =>
    match queue with
    | [] => some ([], [])
    | call :: rest =>
      if call.calltime ≤ when then
        let queue' := (env call.fn).foldl (fun q nc => schedule_call nc q) rest
        (run_scheduled_calls env fuel queue' when).map
          (fun p => (call :: p.1, p.2))
      else some ([], call :: rest)

/-- Membership after insertion: an element of the new queue is the new
call or an old element. -/
theorem mem_schedule_call {α : Type} {c x : gcall α} {l : List (gcall α)}
    (h : x ∈ schedule_call c l) : x = c ∨ x ∈ l := by
  induction l with
  | nil => simpa [schedule_call] using h
  | cons b t ih =>
    by_cases hc : c.calltime < b.calltime
    · rw [schedule_call, if_pos hc] at h
      rcases List.mem_cons.mp h with h | h
      · exact Or.inl h
      · exact Or.inr h
    · rw [schedule_call, if_neg hc] at h
      rcases List.mem_cons.mp h with h | h
      · exact Or.inr (List.mem_cons.mpr (Or.inl h))
      · rcases ih h with h | h
        · exact Or.inl h
        · exact Or.inr (List.mem_cons.mpr (Or.inr h))

/-- The new call is in the queue after insertion. -/
theorem schedule_call_mem_self {α : Type} (c : gcall α) (l : List (gcall α)) :
    c ∈ schedule_call c l := by
  induction l with
  | nil => simp [schedule_call]
  | cons b t ih =>
    by_cases hc : c.calltime < b.calltime
    · rw [schedule_call, if_pos hc]
      exact List.mem_cons_self c _
    · rw [schedule_call, if_neg hc]
      exact List.mem_cons_of_mem _ ih

/-- Sortedness of a queue: fire times nondecreasing from head to tail. -/
def timeSorted {α : Type} (l : List (gcall α)) : Prop :=
  l.Pairwise (fun a b => a.calltime ≤ b.calltime)

instance {α : Type} (l : List (gcall α)) : Decidable (timeSorted l) := by
  unfold timeSorted; infer_instance

/-- Insertion preserves sortedness. -/
theorem timeSorted_schedule_call {α : Type} {c : gcall α} {l : List (gcall α)}
    (h : timeSorted l) : timeSorted (schedule_call c l) := by
  induction l with
  | nil => simp [timeSorted, schedule_call]
  | cons b t ih =>
    rcases (List.pairwise_cons.mp h) with ⟨hb, ht⟩
    by_cases hc : c.calltime < b.calltime
    · rw [timeSorted, schedule_call, if_pos hc]
      refine List.pairwise_cons.mpr ⟨?_, h⟩
      intro x hx
      rcases List.mem_cons.mp hx with hx | hx
      · subst hx; omega
      · exact le_trans (le_of_lt hc) (hb x hx)
    · rw [timeSorted, schedule_call, if_neg hc]
      refine List.pairwise_cons.mpr ⟨?_, ih ht⟩
      intro x hx
      rcases mem_schedule_call hx with rfl | hx
      · omega
      · exact hb x hx

/-- Stability of `schedule_call`: the new entry lands exactly after the
maximal prefix of entries whose time is ≤ its own, so among equal
timestamps insertion order is preserved (FIFO). -/
theorem schedule_call_stable {α : Type} (c : gcall α) (l : List (gcall α)) :
    schedule_call c l =
      l.takeWhile (fun x => x.calltime ≤ c.calltime) ++
        c :: l.dropWhile (fun x => x.calltime ≤ c.calltime) := by
  induction l with
  | nil => simp [schedule_call]
  | cons b t ih =>
    by_cases hc : c.calltime < b.calltime
    · have hb : ¬ (b.calltime ≤ c.calltime) := by omega
      simp [schedule_call, if_pos hc, List.takeWhile_cons, List.dropWhile_cons, hb]
    · have hb : b.calltime ≤ c.calltime := by omega
      simp [schedule_call, if_neg hc, List.takeWhile_cons, List.dropWhile_cons, hb, ih]

end GenSched

/-! ## Global state of the master process -/

/-- The mutable global state of main.c plus the platform driver's
observable state (grabs, pointer, clipboard, gamma, held modifiers).
`scheduled_calls` holds the pending `schedule_call` entries; the only
callback the master program ever schedules is `set_brightness_cb`,
whose owned argument is the brightness level, so a queue entry is a
`GenSched.gcall ℚ`. -/
structure State : Type where
  focused_remote : Option Nat
  remotes : List Remote
  scheduled_calls : List (GenSched.gcall ℚ)
  saved_master_mousepos : xypoint
  grabbed : Bool
  mousepos : xypoint
  mousepos_screenrel : ℚ × ℚ
  clipboard : String
  cur_modifiers : List Nat
  display_brightness : ℚ
  master_edgehist : dirmap edge_state
  deriving DecidableEq, Repr

/-- Update remote `ri` in place (no-op on an invalid index, which the C
program cannot produce). -/
def modifyRemote (s : State) (ri : Nat) (f : Remote → Remote) : State :=
  match s.remotes[ri]? with
  | some r => { s with remotes := s.remotes.set ri (f r) }
  | none => s

/-! Platform-driver calls (x11.c), modelled as updates of the
platform-owned fields of `State`. -/

/-- `get_clipboard_text()`. -/
def get_clipboard_text (s : State) : String := s.clipboard

/-- `set_clipboard_from_buf()`. -/
def set_clipboard_from_buf (buf : String) (s : State) : State :=
  { s with clipboard := buf }

/-- `get_mousepos()`. -/
def get_mousepos (s : State) : xypoint := s.mousepos

/-- `set_mousepos()`. -/
def set_mousepos (pt : xypoint) (s : State) : State := { s with mousepos := pt }

/-- `set_mousepos_screenrel()`. -/
def set_mousepos_screenrel (xpos ypos : ℚ) (s : State) : State :=
  { s with mousepos_screenrel := (xpos, ypos) }

/-- `grab_inputs()`. -/
def grab_inputs (s : State) : State := { s with grabbed := true }

/-- `ungrab_inputs()`. -/
def ungrab_inputs (s : State) : State := { s with grabbed := false }

/-- `get_current_modifiers()`: the platform's snapshot of held modifiers. -/
def get_current_modifiers (s : State) : List Nat := s.cur_modifiers

/-- `set_display_brightness()`: the local gamma setter. -/
def set_display_brightness (f : ℚ) (s : State) : State :=
  { s with display_brightness := f }

/-- `mc_enqueue_message` (msgchan.c, not in src/).  Modelled from the
spec: adds to the outbound buffer and reports failure when the backlog
exceeds the bounded quota.  Returns the new queue and the failure flag. -/
def mc_enqueue_message (quota : Nat) (q : List Message) (msg : Message) :
    List Message × Bool :=
  if quota ≤ q.length then (q, true) else (q ++ [msg], false)

/-- `schedule_message` (main.c:179-193): insert a future-dated message
into the remote's send-time-ordered queue, in front of the first entry
whose `sendtime` is strictly greater — i.e. after all entries with
send time ≤ the new message's. -/
def schedule_message (newmsg : Message) : List Message → List Message
  | [] => [newmsg]
  | msg :: rest =>
    if newmsg.sendtime < msg.sendtime then newmsg :: msg :: rest
    else msg :: schedule_message newmsg rest

/-- `schedule_brightness_change` (main.c:526-540): a future-dated
SETBRIGHTNESS message on a remote, or a scheduled `set_brightness_cb`
call for the master. -/
def schedule_brightness_change (node : Option Nat) (f : ℚ) (when : Nat)
    (s : State) : State :=
  match node with
  | some ri =>
    modifyRemote s ri (fun r =>
      { r with scheduled_messages :=
          schedule_message { type := MT_SETBRIGHTNESS, brightness := f,
                             sendtime := when } r.scheduled_messages })
  | none =>
    { s with scheduled_calls := GenSched.schedule_call ⟨f, when⟩ s.scheduled_calls }

/-- The scheduling loop of `transition_brightness` (main.c:550-556):
`steps − 1` interpolated events at `now + (i/steps)·duration` for
`i = 1 … steps−1`, then the final event at `now + duration`.  C `float`
arithmetic is modelled as exact rationals and the `(uint64_t)` cast as
the floor. -/
def transition_brightness_steps (node : Option Nat) (lfrom lto : ℚ)
    (duration : Nat) (steps : Nat) (now_us : Nat) (s : State) : State :=
  let s₁ := (List.range' 1 (steps - 1)).foldl (fun acc (i : Nat) =>
    let frac : ℚ := (i : ℚ) / (steps : ℚ)
    schedule_brightness_change node (lfrom + frac * (lto - lfrom))
      (now_us + ((frac * (duration : ℚ)).floor.toNat)) acc) s
  schedule_brightness_change node lto (now_us + duration) s₁

/-- `RECONNECT_INTERVAL_UNIT` (main.c:142): half a second in μs. -/
def RECONNECT_INTERVAL_UNIT : Nat := 500 * 1000

/-- `MAX_RECONNECT_INTERVAL` (main.c:143). -/
def MAX_RECONNECT_INTERVAL : Nat := (30 * 1000 * 1000) / RECONNECT_INTERVAL_UNIT

/-- `MAX_RECONNECT_ATTEMPTS` (main.c:144). -/
def MAX_RECONNECT_ATTEMPTS : Nat := 10

/-- The boundary transitions of `focus_node` (main.c:631-641): leaving
a remote for the master releases the grabs and restores the saved master
pointer position; leaving the master for a remote saves the pointer
position and acquires the grabs; and entering any remote warps the
pointer to the screen center. -/
def focus_node_grab_warp (s₁ : State) (switch_to : Option Nat) : State :=
  let s₂ :=
    if s₁.focused_remote ≠ none ∧ switch_to = none then
      set_mousepos s₁.saved_master_mousepos (ungrab_inputs s₁)
    else if s₁.focused_remote = none ∧ switch_to ≠ none then
      grab_inputs { s₁ with saved_master_mousepos := get_mousepos s₁ }
    else s₁
  if switch_to ≠ none then set_mousepos screen_center s₂ else s₂

/-! ## The failure / focus cascade

These functions can recurse through the cycle `enqueue_message` →
`fail_remote` → `disconnect_remote` → `focus_master` → `focus_node` →
`transfer_clipboard` / `transfer_modifiers` / `indicate_switch` →
`enqueue_message`, so they take fuel and return `none` on exhaustion.
Each carries the main.c line numbers it embeds. -/

mutual

/-- `enqueue_message` (main.c:173-177): append to the remote's channel;
on backlog overflow, `fail_remote(rmt, "send backlog exceeded")`. -/
def enqueue_message : Nat → Config → State → Nat → Message → Nat → Option State
  | 0, _, _, _, _, _ => none
  | fuel + 1, cfg, s, ri, msg, now =>
    match s.remotes[ri]? with
    | none => none
    | some r =>
      let res := mc_enqueue_message cfg.send_backlog r.msgchan msg
      if res.2 then fail_remote fuel cfg s ri now
      else some { s with remotes := s.remotes.set ri { r with msgchan := res.1 } }
  termination_by structural n => n


/-- `fail_remote` (main.c:146-171): disconnect, bump the failure count;
beyond `MAX_RECONNECT_ATTEMPTS` go PERMFAILED (leaving the reconnect
time untouched), otherwise go FAILED with the exponential-backoff
reconnect deadline `now + min(2^(failcount−1), 60) · 0.5 s`. -/
def fail_remote : Nat → Config → State → Nat → Nat → Option State
  | 0, _, _, _, _ => none
  | fuel + 1, cfg, s, ri, now => do
    let s₁ ← disconnect_remote fuel cfg s ri now
    match s₁.remotes[ri]? with
    | none => none
    | some r =>
      let failcount := r.failcount + 1
      if failcount > MAX_RECONNECT_ATTEMPTS then
        let r' := { r with failcount := failcount, state := CS_PERMFAILED }
        some { s₁ with remotes := s₁.remotes.set ri r' }
      else
        let lshift := min (failcount - 1) 63
        let tmp := min (2 ^ lshift) MAX_RECONNECT_INTERVAL
        let r' := { r with
          failcount := failcount
          state := CS_FAILED
          next_reconnect_time := now + tmp * RECONNECT_INTERVAL_UNIT }
        some { s₁ with remotes := s₁.remotes.set ri r' }
  termination_by structural n => n


/-- `disconnect_remote` (main.c:103-140): close the channel (resetting
its queues), drop all scheduled messages, kill and reap the transport
subprocess, and — if this remote was focused — return focus to the
master. -/
def disconnect_remote : Nat → Config → State → Nat → Nat → Option State
  | 0, _, _, _, _ => none
  | fuel + 1, cfg, s, ri, now =>
    match s.remotes[ri]? with
    | none => none
    | some r =>
      let r' := { r with
        msgchan := ([] : List Message)
        scheduled_messages := ([] : List Message)
        sshpid := (-1 : Int) }
      let s₁ := { s with remotes := s.remotes.set ri r' }
      if s₁.focused_remote = some ri then focus_master fuel cfg s₁ now
      else some s₁
  termination_by structural n => n


/-- `focus_master` (main.c:650-658). -/
def focus_master : Nat → Config → State → Nat → Option State
  | 0, _, _, _ => none
  | fuel + 1, cfg, s, now => do
    let p ← focus_node fuel cfg s NT_MASTER (get_current_modifiers s) false now
    some p.1
  termination_by structural n => n


/-- `focus_node` (main.c:592-648), target-resolution part: NONE resolves
to the currently focused node, MASTER to the master, REMOTE to the
remote if it is CONNECTED (otherwise log and return 0); an unexpected
noderef type logs and returns 0. -/
def focus_node : Nat → Config → State → noderef → List Nat → Bool → Nat →
    Option (State × Nat)
  | 0, _, _, _, _, _, _ => none
  | fuel + 1, cfg, s, n, modkeys, from_hotkey, now =>
    match n with
    | NT_NONE => focus_node_body fuel cfg s s.focused_remote modkeys from_hotkey now
    | NT_MASTER => focus_node_body fuel cfg s none modkeys from_hotkey now
    | NT_REMOTE ri =>
      match s.remotes[ri]? with
      | none => none
      | some r =>
        if r.state ≠ CS_CONNECTED then some (s, 0)
        else focus_node_body fuel cfg s (some ri) modkeys from_hotkey now
    | NT_REMOTE_TMPNAME _ => some (s, 0)
  termination_by structural n => n


/-- `focus_node` (main.c:619-648), the part after target resolution.
Note that the C code re-reads the global `focused_remote` after
`indicate_switch` and after `transfer_clipboard` (both of which can
change it by failing a remote), which this embedding mirrors by reading
it from the threaded state. -/
def focus_node_body : Nat → Config → State → Option Nat → List Nat → Bool → Nat →
    Option (State × Nat)
  | 0, _, _, _, _, _, _ => none
  | fuel + 1, cfg, s, switch_to, modkeys, _from_hotkey, now => do
    let s₁ ←
      if switch_to ≠ s.focused_remote
          ∨ cfg.show_nullswitch = NS_YES
          ∨ (cfg.show_nullswitch = NS_HOTKEYONLY ∧ _from_hotkey = true) then
        indicate_switch fuel cfg s s.focused_remote switch_to now
      else some s
    if switch_to = s₁.focused_remote then some (s₁, 0)
    else do
      let s₃ := focus_node_grab_warp s₁ switch_to
      let s₄ ← transfer_clipboard fuel cfg s₃ s₃.focused_remote switch_to now
      let s₅ ← transfer_modifiers fuel cfg s₄ s₄.focused_remote switch_to modkeys now
      some ({ s₅ with focused_remote := switch_to }, 1)
  termination_by structural n => n


/-- `indicate_switch` (main.c:559-584). -/
def indicate_switch : Nat → Config → State → Option Nat → Option Nat → Nat →
    Option State
  | 0, _, _, _, _, _ => none
  | fuel + 1, cfg, s, nfrom, nto, now =>
    let fh := cfg.focus_hint
    match fh.type with
    | FH_NONE => some s
    | FH_DIM_INACTIVE => do
      let s₁ ←
        if nfrom ≠ nto then
          transition_brightness fuel cfg s nfrom 1 fh.brightness fh.duration
            fh.fade_steps now
        else some s
      transition_brightness fuel cfg s₁ nto fh.brightness 1 fh.duration
        fh.fade_steps now
    | FH_FLASH_ACTIVE =>
      transition_brightness fuel cfg s nto fh.brightness 1 fh.duration
        fh.fade_steps now
  termination_by structural n => n


/-- `transition_brightness` (main.c:542-557): set the node to `lfrom`
immediately, then schedule the interpolated steps and the final event. -/
def transition_brightness : Nat → Config → State → Option Nat → ℚ → ℚ → Nat →
    Nat → Nat → Option State
  | 0, _, _, _, _, _, _, _, _ => none
  | fuel + 1, cfg, s, node, lfrom, lto, duration, steps, now => do
    let s₁ ← set_node_display_brightness fuel cfg s node lfrom now
    some (transition_brightness_steps node lfrom lto duration steps now s₁)
  termination_by structural n => n


/-- `set_node_display_brightness` (main.c:509-515). -/
def set_node_display_brightness : Nat → Config → State → Option Nat → ℚ → Nat →
    Option State
  | 0, _, _, _, _, _ => none
  | fuel + 1, cfg, s, node, f, now =>
    match node with
    | none => some (set_display_brightness f s)
    | some ri => send_setbrightness fuel cfg s ri f now
  termination_by structural n => n


/-- `send_setbrightness` (main.c:495-507). -/
def send_setbrightness : Nat → Config → State → Nat → ℚ → Nat → Option State
  | 0, _, _, _, _, _ => none
  | fuel + 1, cfg, s, ri, f, now =>
    enqueue_message fuel cfg s ri { type := MT_SETBRIGHTNESS, brightness := f } now
  termination_by structural n => n


/-- `transfer_clipboard` (main.c:405-424).  Note the `else if`: when both
nodes are remotes only the GETCLIPBOARD to the departing remote is sent
(the arriving one is served later by the asynchronous SETCLIPBOARD
response forwarding in `handle_message`). -/
def transfer_clipboard : Nat → Config → State → Option Nat → Option Nat → Nat →
    Option State
  | 0, _, _, _, _, _ => none
  | fuel + 1, cfg, s, nfrom, nto, now =>
    match nfrom, nto with
    | none, none => some s
    | some fi, _ => enqueue_message fuel cfg s fi { type := MT_GETCLIPBOARD } now
    | none, some ti =>
      enqueue_message fuel cfg s ti
        { type := MT_SETCLIPBOARD, buf := get_clipboard_text s } now
  termination_by structural n => n


/-- `transfer_modifiers` (main.c:426-448): RELEASE events of every held
modifier to the departing remote, then PRESS events to the arriving one. -/
def transfer_modifiers : Nat → Config → State → Option Nat → Option Nat →
    List Nat → Nat → Option State
  | 0, _, _, _, _, _, _ => none
  | fuel + 1, cfg, s, nfrom, nto, modkeys, now => do
    let s₁ ←
      match nfrom with
      | none => some s
      | some fi => transfer_modifiers_loop fuel cfg s fi modkeys PR_RELEASE now
    match nto with
    | none => some s₁
    | some ti => transfer_modifiers_loop fuel cfg s₁ ti modkeys PR_PRESS now
  termination_by structural n => n


/-- One of the two loops of `transfer_modifiers`: enqueue a KEYEVENT per
modifier key. -/
def transfer_modifiers_loop : Nat → Config → State → Nat → List Nat →
    pressrel_t → Nat → Option State
  | 0, _, _, _, _, _, _ => none
  | _fuel + 1, _, s, _, [], _, _ => some s
  | fuel + 1, cfg, s, ri, k :: ks, pr, now => do
    let s₁ ← enqueue_message fuel cfg s ri
      { type := MT_KEYEVENT, keycode := k, pressrel := pr } now
    transfer_modifiers_loop fuel cfg s₁ ri ks pr now
  termination_by structural n => n

end

/-- `focus_neighbor` (main.c:660-665): follow the neighbor slot of the
focused node (the master's when focus is home). -/
def focus_neighbor (fuel : Nat) (cfg : Config) (s : State) (dir : direction_t)
    (modkeys : List Nat) (from_hotkey : Bool) (now : Nat) : Option (State × Nat) :=
  match fuel with
  | 0 => none
  | fuel + 1 =>
    match s.focused_remote with
    | some ri =>
      match s.remotes[ri]? with
      | none => none
      | some r => focus_node fuel cfg s (r.neighbors.get dir) modkeys from_hotkey now
    | none => focus_node fuel cfg s (cfg.master_neighbors.get dir) modkeys from_hotkey now

/-- `record_edgeevent` (main.c:769-778): an event of the same type as the
last recorded one is rejected (status 1) without touching the history;
otherwise the ring index advances, the timestamp is stored, and the last
event type is updated (status 0). -/
def record_edgeevent (es : edge_state) (evtype : edgeevent_t) (when : Nat) :
    edge_state × Nat :=
  if evtype = es.last_evtype then (es, 1)
  else
    let evidx := (es.evidx + 1) % EDGESTATE_HISTLEN
    ({ evidx := evidx, event_times := es.event_times.set evidx when,
       last_evtype := evtype }, 0)

/-- `get_edgehist_entry` (main.c:780-788): timestamp `rel_idx` entries
back from the most recent (0 = the most recent).  The C code asserts
`rel_idx < EDGESTATE_HISTLEN`; out of range is `none` here. -/
def get_edgehist_entry (es : edge_state) (rel_idx : Nat) : Option Nat :=
  if rel_idx < EDGESTATE_HISTLEN then
    some (es.event_times.getD
      ((es.evidx + EDGESTATE_HISTLEN - rel_idx) % EDGESTATE_HISTLEN) 0)
  else none

/-- `edgeswitch_reposition` (main.c:796-835): place the pointer of the
(post-switch) focused node at the edge opposite the crossed one —
LEFT ⇒ (1, src_y), RIGHT ⇒ (0, src_y), UP ⇒ (src_x, 1),
DOWN ⇒ (src_x, 0) — via a SETMOUSEPOSSCREENREL message when focus is on
a remote, locally otherwise. -/
def edgeswitch_reposition (fuel : Nat) (cfg : Config) (s : State)
    (dir : direction_t) (src_x src_y : ℚ) (now : Nat) : Option State :=
  match fuel with
  | 0 => none
  | fuel + 1 =>
    let xy : ℚ × ℚ :=
      match dir with
      | LEFT => (1, src_y)
      | RIGHT => (0, src_y)
      | UP => (src_x, 1)
      | DOWN => (src_x, 0)
    match s.focused_remote with
    | some ri =>
      enqueue_message fuel cfg s ri
        { type := MT_SETMOUSEPOSSCREENREL, xpos := xy.1, ypos := xy.2 } now
    | none => some (set_mousepos_screenrel xy.1 xy.2 s)

/-- Which edge-event history an event refers to: the master's own
(`trigger_edgeevent_cb`, main.c:889-892) or a remote's
(EDGEMASKCHANGE handling, main.c:937-945). -/
inductive histOwner : Type
  | master
  | rmt (ri : Nat)
  deriving DecidableEq, Repr

/-- Read the per-direction history of an owner. -/
def getHist (s : State) : histOwner → direction_t → Option edge_state
  | .master, dir => some (s.master_edgehist.get dir)
  | .rmt ri, dir => (s.remotes[ri]?).map (fun r => r.edgehist.get dir)

/-- Write the per-direction history of an owner. -/
def setHist (s : State) : histOwner → direction_t → edge_state → State
  | .master, dir, es => { s with master_edgehist := s.master_edgehist.set dir es }
  | .rmt ri, dir, es =>
    modifyRemote s ri (fun r => { r with edgehist := r.edgehist.set dir es })

/-- `trigger_edgeevent` (main.c:837-870): record the event (out-of-sync
duplicates return 1 with nothing recorded); on a recorded ARRIVE under
MULTITAP, look `(num−1)·2` entries back; if that first tap was less than
`window` ago, switch focus to the neighbor, and on a real switch
reposition the pointer on the newly focused node. -/
def trigger_edgeevent (fuel : Nat) (cfg : Config) (s : State) (o : histOwner)
    (dir : direction_t) (evtype : edgeevent_t) (src_xpos src_ypos : ℚ)
    (now : Nat) : Option (State × Nat) :=
  match fuel with
  | 0 => none
  | fuel + 1 => do
    let es ← getHist s o dir
    let res := record_edgeevent es evtype now
    if res.2 ≠ 0 then some (s, res.2)
    else
      let s₁ := setHist s o dir res.1
      if cfg.mouseswitch.type = MS_MULTITAP ∧ evtype = EE_ARRIVE then
        let start_idx := (cfg.mouseswitch.num - 1) * 2
        match get_edgehist_entry res.1 start_idx with
        | none => none
        | some first_tap =>
          let duration := now - first_tap
          if duration < cfg.mouseswitch.window then do
            let modkeys := get_current_modifiers s₁
            let p ← focus_neighbor fuel cfg s₁ dir modkeys false now
            if p.2 ≠ 0 then do
              let s₃ ← edgeswitch_reposition fuel cfg p.1 dir src_xpos src_ypos now
              some (s₃, 0)
            else some (p.1, 0)
          else some (s₁, 0)
      else some (s₁, 0)

/-- One direction of `check_edgeevents` (main.c:879-886): if that
direction's bit differs between the masks, trigger the ARRIVE (bit now
set) or DEPART (bit now clear) event. -/
def check_edgeevents_dir (fuel : Nat) (cfg : Config) (s : State) (o : histOwner)
    (oldmask newmask : Nat) (xpos ypos : ℚ) (now : Nat) (dir : direction_t) :
    Option State := do
  let dirmask := 1 <<< dir.idx
  if oldmask &&& dirmask ≠ newmask &&& dirmask then
    let edgeevtype := if newmask &&& dirmask ≠ 0 then EE_ARRIVE else EE_DEPART
    let p ← trigger_edgeevent fuel cfg s o dir edgeevtype xpos ypos now
    some p.1
  else some s

/-- `check_edgeevents` (main.c:872-887): handle every direction whose
edge-mask bit changed, in direction order. -/
def check_edgeevents (fuel : Nat) (cfg : Config) (s : State) (o : histOwner)
    (oldmask newmask : Nat) (xpos ypos : ℚ) (now : Nat) : Option State :=
  match fuel with
  | 0 => none
  | fuel + 1 => do
    let s₁ ← check_edgeevents_dir fuel cfg s o oldmask newmask xpos ypos now LEFT
    let s₂ ← check_edgeevents_dir fuel cfg s₁ o oldmask newmask xpos ypos now RIGHT
    let s₃ ← check_edgeevents_dir fuel cfg s₂ o oldmask newmask xpos ypos now UP
    check_edgeevents_dir fuel cfg s₃ o oldmask newmask xpos ypos now DOWN

/-- The mask with every defined direction bit set (`ALLDIRS_MASK`;
types.h is not in src/, the spec says bits outside the four directions
are invalid). -/
def ALLDIRS_MASK : Nat := 15

/-- `handle_message` (main.c:894-951): dispatch one received message.
READY while SETTINGUP connects (resetting the failure count, and
starting the dim-inactive fade when configured); READY in any other
state fails the remote.  SETCLIPBOARD from a non-CONNECTED remote is
ignored after logging; otherwise it sets the local clipboard and, when
focus is on a remote, forwards the clipboard there.  LOGMSG only logs.
EDGEMASKCHANGE validates the masks (failing the remote on stray bits)
and feeds the edge detector.  Any other type fails the remote. -/
def handle_message (fuel : Nat) (cfg : Config) (s : State) (ri : Nat)
    (msg : Message) (now : Nat) : Option State :=
  match fuel with
  | 0 => none
  | fuel + 1 =>
    match s.remotes[ri]? with
    | none => none
    | some r =>
      match msg.type with
      | MT_READY =>
        if r.state ≠ CS_SETTINGUP then fail_remote fuel cfg s ri now
        else
          let r' := { r with state := CS_CONNECTED, failcount := 0 }
          let s₁ := { s with remotes := s.remotes.set ri r' }
          if cfg.focus_hint.type = FH_DIM_INACTIVE then
            transition_brightness fuel cfg s₁ (some ri) 1 cfg.focus_hint.brightness
              cfg.focus_hint.duration cfg.focus_hint.fade_steps now
          else some s₁
      | MT_SETCLIPBOARD =>
        if r.state ≠ CS_CONNECTED then some s
        else
          let s₁ := set_clipboard_from_buf msg.buf s
          match s₁.focused_remote with
          | some fi =>
            enqueue_message fuel cfg s₁ fi
              { type := MT_SETCLIPBOARD, buf := get_clipboard_text s₁ } now
          | none => some s₁
      | MT_LOGMSG => some s
      | MT_EDGEMASKCHANGE =>
        if ALLDIRS_MASK < msg.oldmask ∨ ALLDIRS_MASK < msg.newmask then
          fail_remote fuel cfg s ri now
        else
          check_edgeevents fuel cfg s (.rmt ri) msg.oldmask msg.newmask
            msg.xpos msg.ypos now
      | _ => fail_remote fuel cfg s ri now

/-- `setup_remote` (main.c:269-315): spawn the transport subprocess,
go SETTINGUP, re-initialize the message channel and enqueue the SETUP
handshake message. -/
def setup_remote (fuel : Nat) (cfg : Config) (s : State) (ri : Nat) (now : Nat) :
    Option State :=
  match fuel with
  | 0 => none
  | fuel + 1 =>
    match s.remotes[ri]? with
    | none => none
    | some r =>
      let r' := { r with
        state := CS_SETTINGUP
        sshpid := (1 : Int)
        msgchan := ([] : List Message) }
      let s₁ := { s with remotes := s.remotes.set ri r' }
      enqueue_message fuel cfg s₁ ri { type := MT_SETUP } now

/-- `enqueue_scheduled_messages` (main.c:999-1008): move every
due scheduled message (send time ≤ now) of the remote into its outbound
channel, re-reading the queue after each enqueue (an overflow inside
`enqueue_message` fails the remote and clears the queue, ending the
loop). -/
def enqueue_scheduled_messages (fuel : Nat) (cfg : Config) (s : State) (ri : Nat)
    (now : Nat) : Option State :=
  match fuel with
  | 0 => none
  | fuel + 1 =>
    match s.remotes[ri]? with
    | none => none
    | some r =>
      match r.scheduled_messages with
      | [] => some s
      | msg :: rest =>
        if msg.sendtime ≤ now then do
          let r' := { r with scheduled_messages := rest }
          let s₁ := { s with remotes := s.remotes.set ri r' }
          let s₂ ← enqueue_message fuel cfg s₁ ri msg now
          enqueue_scheduled_messages fuel cfg s₂ ri now
        else some s

/-- The loop of `run_scheduled_calls` (main.c:89-99) as it runs in the
master program: the only callback ever scheduled is `set_brightness_cb`
(main.c:517-524), which applies its owned brightness argument to the
local display and neither schedules nor inspects the queue (the general
reentrant behaviour of the scheduler is `GenSched.run_scheduled_calls`).
Each due head is removed from the state's queue before its callback
runs. -/
def run_scheduled_calls_go : List (GenSched.gcall ℚ) → Nat → State → State
  | [], _, s => s
  | call :: rest, when, s =>
    if call.calltime ≤ when then
      run_scheduled_calls_go rest when
        (set_display_brightness call.fn { s with scheduled_calls := rest })
    else s

/-- `run_scheduled_calls(now)` over the state's queue. -/
def run_scheduled_calls (when : Nat) (s : State) : State :=
  run_scheduled_calls_go s.scheduled_calls when s

/-- The `AT_RECONNECT` hotkey action (main.c:734-742): PERMFAILED
remotes become FAILED again, and every remote's failure count is cleared
and its reconnect deadline set to now. -/
def reconnect_action (now : Nat) (s : State) : State :=
  { s with remotes := s.remotes.map (fun r =>
      { r with
        state := if r.state = CS_PERMFAILED then CS_FAILED else r.state
        failcount := 0
        next_reconnect_time := now }) }

/-- `remote_live` (main.c:994-997): eligible for message I/O. -/
def remote_live (r : Remote) : Prop :=
  r.state = CS_CONNECTED ∨ r.state = CS_SETTINGUP

instance (r : Remote) : Decidable (remote_live r) := by
  unfold remote_live; infer_instance

/-- The reconnect eligibility test of the event loop (main.c:1053):
a FAILED remote whose deadline has passed. -/
def reconnect_due (r : Remote) (now : Nat) : Prop :=
  r.state = CS_FAILED ∧ r.next_reconnect_time < now

instance (r : Remote) (now : Nat) : Decidable (reconnect_due r now) := by
  unfold reconnect_due; infer_instance

/-- A remote right after the startup `setup_remote` call in `main`
(main.c:1183-1184): SETTINGUP, clean counters and queues, the SETUP
handshake pending in its channel. -/
def initial_remote (nbrs : dirmap noderef) : Remote :=
  { state := CS_SETTINGUP
    failcount := 0
    next_reconnect_time := 0
    scheduled_messages := []
    msgchan := [{ type := MT_SETUP }]
    neighbors := nbrs
    edgehist := dirmap.const init_edge_state
    sshpid := 1 }

/-- The master's state when the event loop starts: focus home, empty
scheduler, no grabs, every configured remote freshly set up. -/
def init_state (nbrs : List (dirmap noderef)) : State :=
  { focused_remote := none
    remotes := nbrs.map initial_remote
    scheduled_calls := []
    saved_master_mousepos := ⟨0, 0⟩
    grabbed := false
    mousepos := ⟨0, 0⟩
    mousepos_screenrel := (0, 0)
    clipboard := ""
    cur_modifiers := []
    display_brightness := 1
    master_edgehist := dirmap.const init_edge_state }

/-- One observable transition of the master's event loop: a timer pass,
a due reconnect, moving due scheduled messages, an I/O failure of a live
remote (`fail_remote` from `read_rmtdata`/`write_rmtdata`), receipt of a
message from a live remote, a hotkey action, a master-side edge-mask
change, or a platform-owned input change (clipboard, held modifiers,
pointer).  Times are arbitrary per step; the fueled operations only
contribute a step when they complete (`some`). -/
inductive Step (cfg : Config) : State → State → Prop
  | timer_calls (s : State) (now : Nat) :
      Step cfg s (run_scheduled_calls now s)
  | reconnect (s : State) (ri now fuel : Nat) (r : Remote) (s' : State) :
      s.remotes[ri]? = some r → reconnect_due r now →
      setup_remote fuel cfg s ri now = some s' → Step cfg s s'
  | move_scheduled (s : State) (ri now fuel : Nat) (r : Remote) (s' : State) :
      s.remotes[ri]? = some r → remote_live r →
      enqueue_scheduled_messages fuel cfg s ri now = some s' → Step cfg s s'
  | io_failure (s : State) (ri now fuel : Nat) (r : Remote) (s' : State) :
      s.remotes[ri]? = some r → remote_live r →
      fail_remote fuel cfg s ri now = some s' → Step cfg s s'
  | recv (s : State) (ri now fuel : Nat) (r : Remote) (msg : Message) (s' : State) :
      s.remotes[ri]? = some r → remote_live r →
      handle_message fuel cfg s ri msg now = some s' → Step cfg s s'
  | hotkey_switch (s : State) (dir : direction_t) (modkeys : List Nat)
      (now fuel : Nat) (s' : State) (d : Nat) :
      focus_neighbor fuel cfg s dir modkeys true now = some (s', d) →
      Step cfg s s'
  | hotkey_switchto (s : State) (n : noderef) (modkeys : List Nat)
      (now fuel : Nat) (s' : State) (d : Nat) :
      focus_node fuel cfg s n modkeys true now = some (s', d) → Step cfg s s'
  | hotkey_reconnect (s : State) (now : Nat) :
      Step cfg s (reconnect_action now s)
  | master_edge (s : State) (oldmask newmask : Nat) (xpos ypos : ℚ)
      (now fuel : Nat) (s' : State) :
      check_edgeevents fuel cfg s .master oldmask newmask xpos ypos now = some s' →
      Step cfg s s'
  | platform_input (s : State) (clip : String) (mods : List Nat) (mp : xypoint) :
      Step cfg s { s with clipboard := clip, cur_modifiers := mods, mousepos := mp }

/-- States reachable from startup with remote topology `nbrs`. -/
def Reachable (cfg : Config) (nbrs : List (dirmap noderef)) (s : State) : Prop :=
  Relation.ReflTransGen (Step cfg) (init_state nbrs) s

/-! ## Scheduler lemmas (claims C3 and C6) -/

namespace GenSched

/-- Forward membership: old entries survive insertion. -/
theorem mem_schedule_call_of_mem {α : Type} {x : gcall α} {l : List (gcall α)}
    (h : x ∈ l) (c : gcall α) : x ∈ schedule_call c l := by
  induction l with
  | nil => cases h
  | cons b t ih =>
    by_cases hc : c.calltime < b.calltime
    · rw [schedule_call, if_pos hc]
      exact List.mem_cons_of_mem _ h
    · rw [schedule_call, if_neg hc]
      rcases List.mem_cons.mp h with rfl | h
      · exact List.mem_cons_self _ _
      · exact List.mem_cons_of_mem _ (ih h)

/-- Folding a batch of insertions preserves sortedness. -/
theorem timeSorted_foldl_schedule {α : Type} (calls : List (gcall α)) :
    ∀ l : List (gcall α), timeSorted l →
      timeSorted (calls.foldl (fun q nc => schedule_call nc q) l) := by
  induction calls with
  | nil => intro l h; simpa using h
  | cons c cs ih =>
    intro l h
    simpa using ih (schedule_call c l) (timeSorted_schedule_call h)

/-- Folding a batch of insertions preserves membership. -/
theorem mem_foldl_schedule {α : Type} (calls : List (gcall α)) :
    ∀ {x : gcall α} {l : List (gcall α)}, x ∈ l →
      x ∈ calls.foldl (fun q nc => schedule_call nc q) l := by
  induction calls with
  | nil => intro x l h; simpa using h
  | cons c cs ih =>
    intro x l h
    simpa using ih (mem_schedule_call_of_mem h c)

end GenSched

/-- Insertion as performed by the callback `c3_cb_scheduler` used in the
counterexample to C3: when invoked, callback `0` schedules callback `1`
at fire time 0; callback `1` schedules nothing. -/
def c3_cb_scheduler : Nat → List (GenSched.gcall Nat) :=
  fun a => if a = 0 then [⟨1, 0⟩] else []

/-- **C3, counterexample.**  One scheduled callback (`0`, due at time 0);
its invocation schedules callback `1`, also with fire time 0 ≤ now.
`run_scheduled_calls` fires callback `1` in the *same* pass (the fired
list is `[0, 1]`) and leaves the queue empty, so nothing remains to be
"processed in the next pass" — refuting the claim that a call scheduled
by an invoked callback is never run in the current pass. -/
theorem c3_same_pass_counterexample :
    GenSched.run_scheduled_calls c3_cb_scheduler 10
        [⟨0, 0⟩] 0 = some ([⟨0, 0⟩, ⟨1, 0⟩], []) ∧
      (GenSched.run_scheduled_calls c3_cb_scheduler 10
        [⟨0, 0⟩] 0).map Prod.snd ≠ some [⟨1, 0⟩] := by
  constructor
  · rfl
  · intro h
    simp [show GenSched.run_scheduled_calls c3_cb_scheduler 10
        [⟨0, 0⟩] 0 = some ([⟨0, 0⟩, ⟨1, 0⟩], []) from rfl] at h

/-- **C3, amended.**  `run_due(now)` removes each due entry from the
queue before invoking it and fires callbacks in the order of the live
time-sorted queue; a further call scheduled by an invoked callback is
inserted into the live queue and is itself run in the same pass when its
fire time is ≤ now; at the end of a terminating pass every fired call
was due, exactly the calls with fire time > now remain (still sorted)
for the next pass, and no queued call is lost. -/
theorem c3_run_scheduled_calls_amended :
    ∀ {α : Type} (env : α → List (GenSched.gcall α)) (fuel : Nat)
      (q fired rest : List (GenSched.gcall α)) (when : Nat),
      GenSched.timeSorted q →
      GenSched.run_scheduled_calls env fuel q when = some (fired, rest) →
      (∀ c ∈ fired, c.calltime ≤ when) ∧
      (∀ c ∈ rest, when < c.calltime) ∧
      GenSched.timeSorted rest ∧
      (∀ c ∈ q, c ∈ fired ∨ c ∈ rest) := by
  intro α env fuel
  induction fuel with
  | zero => intro q fired rest when _ h; simp [GenSched.run_scheduled_calls] at h
  | succ fuel ih =>
    intro q fired rest when hsort h
    match q with
    | [] =>
      rw [GenSched.run_scheduled_calls] at h
      injection h with h
      injection h with h1 h2
      subst h1; subst h2
      refine ⟨by simp, by simp, by simp [GenSched.timeSorted], by simp⟩
    | c :: tail =>
      rw [GenSched.run_scheduled_calls] at h
      by_cases hdue : c.calltime ≤ when
      · rw [if_pos hdue] at h
        rcases Option.map_eq_some'.mp h with ⟨p, hrun, hp⟩
        have hq' : GenSched.timeSorted
            ((env c.fn).foldl (fun q nc => GenSched.schedule_call nc q) tail) :=
          GenSched.timeSorted_foldl_schedule _ _
            (List.Pairwise.of_cons hsort)
        obtain ⟨hf, hr, hrs, hmem⟩ := ih _ p.1 p.2 when hq' (by
          simpa using hrun)
        have hfired : fired = c :: p.1 := by
          have := congrArg Prod.fst hp; simpa using this.symm
        have hrest : rest = p.2 := by
          have := congrArg Prod.snd hp; simpa using this.symm
        subst hfired; subst hrest
        refine ⟨?_, hr, hrs, ?_⟩
        · intro x hx
          rcases List.mem_cons.mp hx with rfl | hx
          · exact hdue
          · exact hf x hx
        · intro x hx
          rcases List.mem_cons.mp hx with rfl | hx
          · exact Or.inl (List.mem_cons_self _ _)
          · rcases hmem x (GenSched.mem_foldl_schedule _ hx) with h' | h'
            · exact Or.inl (List.mem_cons_of_mem _ h')
            · exact Or.inr h'
      · rw [if_neg hdue] at h
        injection h with h
        injection h with h1 h2
        subst h1; subst h2
        have hhead := List.pairwise_cons.mp hsort
        refine ⟨by simp, ?_, hsort, by intro x hx; exact Or.inr hx⟩
        intro x hx
        rcases List.mem_cons.mp hx with rfl | hx
        · omega
        · have := hhead.1 x hx; omega

/-- Witness for the amended C3 theorem at a concrete input: queue
`[(cb 0 @ 3), (cb 1 @ 10)]`, now = 5, callbacks scheduling nothing. -/
theorem c3_run_scheduled_calls_amended_witness :
    GenSched.timeSorted [(⟨0, 3⟩ : GenSched.gcall Nat), ⟨1, 10⟩] ∧
      GenSched.run_scheduled_calls (fun _ => []) 5
        [(⟨0, 3⟩ : GenSched.gcall Nat), ⟨1, 10⟩] 5 = some ([⟨0, 3⟩], [⟨1, 10⟩]) ∧
      ((∀ c ∈ [(⟨0, 3⟩ : GenSched.gcall Nat)], c.calltime ≤ 5) ∧
       (∀ c ∈ [(⟨1, 10⟩ : GenSched.gcall Nat)], 5 < c.calltime) ∧
       GenSched.timeSorted [(⟨1, 10⟩ : GenSched.gcall Nat)] ∧
       (∀ c ∈ [(⟨0, 3⟩ : GenSched.gcall Nat), ⟨1, 10⟩],
         c ∈ [(⟨0, 3⟩ : GenSched.gcall Nat)] ∨ c ∈ [(⟨1, 10⟩ : GenSched.gcall Nat)])) :=
  ⟨by decide, by decide,
    c3_run_scheduled_calls_amended (fun _ => []) 5 _ _ _ 5 (by decide) (by decide)⟩

/-! ## Edge-event history alternation (claim C8) -/

/-- Feed a list of (type, timestamp) edge events through
`record_edgeevent`, returning the final history together with the list
of event types that were actually recorded (status 0), in order. -/
def run_record_edgeevents : edge_state → List (edgeevent_t × Nat) →
    edge_state × List edgeevent_t
  | es, [] => (es, [])
  | es, (ev, t) :: evs =>
    let res := record_edgeevent es ev t
    let p := run_record_edgeevents res.1 evs
    if res.2 = 0 then (p.1, ev :: p.2) else (p.1, p.2)

/-- Two edge-event types alternate: an ARRIVE is preceded by a DEPART
and vice versa. -/
def alternates (a b : edgeevent_t) : Prop :=
  (b = EE_ARRIVE → a = EE_DEPART) ∧ (b = EE_DEPART → a = EE_ARRIVE)

instance (a b : edgeevent_t) : Decidable (alternates a b) := by
  unfold alternates; infer_instance

/-- After `record_edgeevent`, the stored last event type is unchanged on
rejection and is the new event on acceptance. -/
theorem record_edgeevent_last {es : edge_state} {ev : edgeevent_t} {t : Nat} :
    (record_edgeevent es ev t).2 = 0 →
      ((record_edgeevent es ev t).1).last_evtype = ev := by
  unfold record_edgeevent
  by_cases h : ev = es.last_evtype
  · simp [h]
  · simp [h]

/-- **C8.**  (1) An incoming edge event whose type equals the last
recorded one is rejected (status 1) with the history left untouched.
(2) Consequently the recorded events of any run strictly alternate:
prefixing the recorded-type sequence with the history's current last
type, consecutive entries always differ — every recorded ARRIVE is
preceded by a DEPART and vice versa. -/
theorem c8_edgeevents_alternate :
    (∀ (es : edge_state) (ev : edgeevent_t) (t : Nat),
      ev = es.last_evtype → record_edgeevent es ev t = (es, 1)) ∧
    (∀ (es : edge_state) (evs : List (edgeevent_t × Nat)),
      List.Chain' alternates (es.last_evtype :: (run_record_edgeevents es evs).2)) := by
  constructor
  · intro es ev t h
    unfold record_edgeevent
    rw [if_pos h]
  · intro es evs
    induction evs generalizing es with
    | nil => simp [run_record_edgeevents]
    | cons evt evs ih =>
      obtain ⟨ev, t⟩ := evt
      rw [run_record_edgeevents]
      by_cases h : ev = es.last_evtype
      · have hrec : record_edgeevent es ev t = (es, 1) := by
          unfold record_edgeevent; rw [if_pos h]
        simp only [hrec]
        simpa using ih es
      · have hrec2 : (record_edgeevent es ev t).2 = 0 := by
          unfold record_edgeevent; rw [if_neg h]
        have hlast : ((record_edgeevent es ev t).1).last_evtype = ev :=
          record_edgeevent_last hrec2
        simp only [hrec2, if_true, if_pos trivial]
        rw [List.chain'_cons]
        constructor
        · cases ev <;> cases hes : es.last_evtype <;>
            simp_all [alternates]
        · have := ih (record_edgeevent es ev t).1
          rwa [hlast] at this

/-- Witness for the rejection half of C8 at a concrete input. -/
theorem c8_edgeevents_alternate_witness :
    EE_DEPART = init_edge_state.last_evtype ∧
      record_edgeevent init_edge_state EE_DEPART 42 = (init_edge_state, 1) :=
  ⟨by decide, c8_edgeevents_alternate.1 init_edge_state EE_DEPART 42 (by decide)⟩

/-! ## Queue-ordering invariant (claim C6) -/

/-- Sortedness of a scheduled-message queue: send times nondecreasing
from head to tail. -/
def msgSorted (l : List Message) : Prop :=
  l.Pairwise (fun a b => a.sendtime ≤ b.sendtime)

instance (l : List Message) : Decidable (msgSorted l) := by
  unfold msgSorted; infer_instance

/-- Membership after `schedule_message`: the new message or an old one. -/
theorem mem_schedule_message {m x : Message} {l : List Message}
    (h : x ∈ schedule_message m l) : x = m ∨ x ∈ l := by
  induction l with
  | nil => simpa [schedule_message] using h
  | cons b t ih =>
    by_cases hc : m.sendtime < b.sendtime
    · rw [schedule_message, if_pos hc] at h
      rcases List.mem_cons.mp h with h | h
      · exact Or.inl h
      · exact Or.inr h
    · rw [schedule_message, if_neg hc] at h
      rcases List.mem_cons.mp h with rfl | h
      · exact Or.inr (List.mem_cons.mpr (Or.inl rfl))
      · rcases ih h with h | h
        · exact Or.inl h
        · exact Or.inr (List.mem_cons.mpr (Or.inr h))

/-- `schedule_message` preserves sortedness. -/
theorem msgSorted_schedule_message {m : Message} {l : List Message}
    (h : msgSorted l) : msgSorted (schedule_message m l) := by
  induction l with
  | nil => simp [msgSorted, schedule_message]
  | cons b t ih =>
    rcases (List.pairwise_cons.mp h) with ⟨hb, ht⟩
    by_cases hc : m.sendtime < b.sendtime
    · rw [msgSorted, schedule_message, if_pos hc]
      refine List.pairwise_cons.mpr ⟨?_, h⟩
      intro x hx
      rcases List.mem_cons.mp hx with hx | hx
      · subst hx; omega
      · exact le_trans (le_of_lt hc) (hb x hx)
    · rw [msgSorted, schedule_message, if_neg hc]
      refine List.pairwise_cons.mpr ⟨?_, ih ht⟩
      intro x hx
      rcases mem_schedule_message hx with rfl | hx
      · omega
      · exact hb x hx

/-- Stability of `schedule_message`: the new message lands exactly after
the maximal prefix of entries with send time ≤ its own, so ties keep
FIFO insertion order. -/
theorem schedule_message_stable (m : Message) (l : List Message) :
    schedule_message m l =
      l.takeWhile (fun x => x.sendtime ≤ m.sendtime) ++
        m :: l.dropWhile (fun x => x.sendtime ≤ m.sendtime) := by
  induction l with
  | nil => simp [schedule_message]
  | cons b t ih =>
    by_cases hc : m.sendtime < b.sendtime
    · have hb : ¬ (b.sendtime ≤ m.sendtime) := by omega
      simp [schedule_message, if_pos hc, List.takeWhile_cons, List.dropWhile_cons, hb]
    · have hb : b.sendtime ≤ m.sendtime := by omega
      simp [schedule_message, if_neg hc, List.takeWhile_cons, List.dropWhile_cons, hb, ih]

/-- `l[i]? = some a` implies membership. -/
theorem mem_of_getElem_opt {α : Type} {l : List α} {i : Nat} {a : α}
    (h : l[i]? = some a) : a ∈ l := by
  obtain ⟨hlt, rfl⟩ := List.getElem?_eq_some.mp h
  exact List.getElem_mem hlt

/-- The queue-ordering invariant of spec §3/§8: the scheduled-call queue
and every remote's scheduled-message queue are time-sorted. -/
def QInv (s : State) : Prop :=
  GenSched.timeSorted s.scheduled_calls ∧
    ∀ r ∈ s.remotes, msgSorted r.scheduled_messages

/-- Replacing one remote with one whose scheduled queue is sorted. -/
theorem QInv_set_remote {s : State} {ri : Nat} {r' : Remote} (h : QInv s)
    (h' : msgSorted r'.scheduled_messages) :
    QInv { s with remotes := s.remotes.set ri r' } := by
  refine ⟨h.1, ?_⟩
  intro x hx
  rcases List.mem_or_eq_of_mem_set hx with hx | rfl
  · exact h.2 x hx
  · exact h'

/-- `modifyRemote` with an update that keeps the scheduled queue sorted. -/
theorem QInv_modifyRemote {s : State} {ri : Nat} {f : Remote → Remote}
    (h : QInv s)
    (hf : ∀ r, msgSorted r.scheduled_messages → msgSorted (f r).scheduled_messages) :
    QInv (modifyRemote s ri f) := by
  unfold modifyRemote
  cases hr : s.remotes[ri]? with
  | none => exact h
  | some r => exact QInv_set_remote h (hf r (h.2 r (mem_of_getElem_opt hr)))

/-- `schedule_brightness_change` preserves the queue invariant. -/
theorem QInv_schedule_brightness_change {node : Option Nat} {f : ℚ} {when : Nat}
    {s : State} (h : QInv s) : QInv (schedule_brightness_change node f when s) := by
  unfold schedule_brightness_change
  cases node with
  | some ri =>
    exact QInv_modifyRemote h (fun r hr => msgSorted_schedule_message hr)
  | none =>
    exact ⟨GenSched.timeSorted_schedule_call h.1, h.2⟩

/-- `transition_brightness_steps` preserves the queue invariant. -/
theorem QInv_transition_brightness_steps {node : Option Nat} {lfrom lto : ℚ}
    {duration steps now_us : Nat} {s : State} (h : QInv s) :
    QInv (transition_brightness_steps node lfrom lto duration steps now_us s) := by
  unfold transition_brightness_steps
  refine QInv_schedule_brightness_change ?_
  generalize List.range' 1 (steps - 1) = l
  induction l generalizing s with
  | nil => simpa using h
  | cons i is ih => simpa using ih (QInv_schedule_brightness_change h)

/-- `setHist` preserves the queue invariant. -/
theorem QInv_setHist {s : State} {o : histOwner} {dir : direction_t}
    {es : edge_state} (h : QInv s) : QInv (setHist s o dir es) := by
  cases o with
  | master => exact ⟨h.1, h.2⟩
  | rmt ri => exact QInv_modifyRemote h (fun r hr => hr)


/-- Destructor for `Option.bind` in the `some` case. -/
theorem optBind_some {α β : Type} {x : Option α} {f : α → Option β} {b : β}
    (h : x >>= f = some b) : ∃ a, x = some a ∧ f a = some b := by
  cases x with
  | none => simp at h
  | some a => exact ⟨a, rfl, by simpa using h⟩

/-- The queue invariant respects `if`. -/
theorem QInv_ite {c : Prop} [Decidable c] {a b : State} (ha : QInv a)
    (hb : QInv b) : QInv (if c then a else b) := by
  split
  · exact ha
  · exact hb

/-- `focus_node_grab_warp` preserves the queue invariant (it only
touches platform-owned fields). -/
theorem QInv_focus_node_grab_warp {s₁ : State} {switch_to : Option Nat}
    (h : QInv s₁) : QInv (focus_node_grab_warp s₁ switch_to) := by
  unfold focus_node_grab_warp
  dsimp only []
  exact QInv_ite (QInv_ite h (QInv_ite h h)) (QInv_ite h (QInv_ite h h))

/-- Every function of the failure / focus cascade preserves the queue
invariant: they touch the scheduled queues only by time-ordered
insertion (`schedule_message` / `schedule_call`) or by clearing them. -/
theorem QInv_cascade (fuel : Nat) :
    (∀ cfg s ri msg now s', QInv s →
      enqueue_message fuel cfg s ri msg now = some s' → QInv s') ∧
    (∀ cfg s ri now s', QInv s →
      fail_remote fuel cfg s ri now = some s' → QInv s') ∧
    (∀ cfg s ri now s', QInv s →
      disconnect_remote fuel cfg s ri now = some s' → QInv s') ∧
    (∀ cfg s now s', QInv s →
      focus_master fuel cfg s now = some s' → QInv s') ∧
    (∀ cfg s n modkeys fh now p, QInv s →
      focus_node fuel cfg s n modkeys fh now = some p → QInv p.1) ∧
    (∀ cfg s st modkeys fh now p, QInv s →
      focus_node_body fuel cfg s st modkeys fh now = some p → QInv p.1) ∧
    (∀ cfg s a b now s', QInv s →
      indicate_switch fuel cfg s a b now = some s' → QInv s') ∧
    (∀ cfg s node lf lt dur st now s', QInv s →
      transition_brightness fuel cfg s node lf lt dur st now = some s' → QInv s') ∧
    (∀ cfg s node f now s', QInv s →
      set_node_display_brightness fuel cfg s node f now = some s' → QInv s') ∧
    (∀ cfg s ri f now s', QInv s →
      send_setbrightness fuel cfg s ri f now = some s' → QInv s') ∧
    (∀ cfg s a b now s', QInv s →
      transfer_clipboard fuel cfg s a b now = some s' → QInv s') ∧
    (∀ cfg s a b modkeys now s', QInv s →
      transfer_modifiers fuel cfg s a b modkeys now = some s' → QInv s') ∧
    (∀ cfg s ri modkeys pr now s', QInv s →
      transfer_modifiers_loop fuel cfg s ri modkeys pr now = some s' → QInv s') := by
  induction fuel with
  | zero =>
    refine ⟨?_, ?_, ?_, ?_, ?_, ?_, ?_, ?_, ?_, ?_, ?_, ?_, ?_⟩
    · intro cfg s ri msg now s' hq h; simp [enqueue_message] at h
    · intro cfg s ri now s' hq h; simp [fail_remote] at h
    · intro cfg s ri now s' hq h; simp [disconnect_remote] at h
    · intro cfg s now s' hq h; simp [focus_master] at h
    · intro cfg s n modkeys fh now p hq h; simp [focus_node] at h
    · intro cfg s st modkeys fh now p hq h; simp [focus_node_body] at h
    · intro cfg s a b now s' hq h; simp [indicate_switch] at h
    · intro cfg s node lf lt dur st now s' hq h; simp [transition_brightness] at h
    · intro cfg s node f now s' hq h; simp [set_node_display_brightness] at h
    · intro cfg s ri f now s' hq h; simp [send_setbrightness] at h
    · intro cfg s a b now s' hq h; simp [transfer_clipboard] at h
    · intro cfg s a b modkeys now s' hq h; simp [transfer_modifiers] at h
    · intro cfg s ri modkeys pr now s' hq h; simp [transfer_modifiers_loop] at h
  | succ fuel ih =>
    obtain ⟨ih_enq, ih_fail, ih_disc, ih_fm, ih_fn, ih_fnb, ih_ind, ih_tb,
      ih_snd, ih_ssb, ih_tc, ih_tm, ih_tml⟩ := ih
    have henq : ∀ cfg s ri msg now s', QInv s →
        enqueue_message (fuel + 1) cfg s ri msg now = some s' → QInv s' := by
      intro cfg s ri msg now s' hq h
      rw [enqueue_message] at h
      split at h
      next => cases h
      next r hr =>
        dsimp only [] at h
        split at h
        · exact ih_fail cfg s ri now s' hq h
        · injection h with h; subst h
          exact QInv_set_remote hq (hq.2 r (mem_of_getElem_opt hr))
    have hfail : ∀ cfg s ri now s', QInv s →
        fail_remote (fuel + 1) cfg s ri now = some s' → QInv s' := by
      intro cfg s ri now s' hq h
      rw [fail_remote] at h
      obtain ⟨s₁, h₁, h₂⟩ := optBind_some h
      have hq₁ := ih_disc cfg s ri now s₁ hq h₁
      split at h₂
      next => cases h₂
      next r hr =>
        have hrm := hq₁.2 r (mem_of_getElem_opt hr)
        dsimp only [] at h₂
        split at h₂ <;> (injection h₂ with h₂; subst h₂; exact QInv_set_remote hq₁ hrm)
    have hdisc : ∀ cfg s ri now s', QInv s →
        disconnect_remote (fuel + 1) cfg s ri now = some s' → QInv s' := by
      intro cfg s ri now s' hq h
      rw [disconnect_remote] at h
      split at h
      next => cases h
      next r hr =>
        dsimp only [] at h
        have hq₁ : QInv { s with remotes := s.remotes.set ri { r with
            msgchan := ([] : List Message)
            scheduled_messages := ([] : List Message)
            sshpid := (-1 : Int) } } :=
          QInv_set_remote hq (by simp [msgSorted])
        split at h
        · exact ih_fm cfg _ now s' hq₁ h
        · injection h with h; subst h; exact hq₁
    have hfm : ∀ cfg s now s', QInv s →
        focus_master (fuel + 1) cfg s now = some s' → QInv s' := by
      intro cfg s now s' hq h
      rw [focus_master] at h
      obtain ⟨p, h₁, h₂⟩ := optBind_some h
      injection h₂ with h₂; subst h₂
      exact ih_fn cfg s NT_MASTER (get_current_modifiers s) false now p hq h₁
    have hind : ∀ cfg s a b now s', QInv s →
        indicate_switch (fuel + 1) cfg s a b now = some s' → QInv s' := by
      intro cfg s a b now s' hq h
      rw [indicate_switch] at h
      dsimp only [] at h
      split at h
      · injection h with h; subst h; exact hq
      · split at h
        · obtain ⟨s₁, h₁, h₂⟩ := optBind_some h
          have hq₁ : QInv s₁ :=
            ih_tb cfg s a 1 cfg.focus_hint.brightness cfg.focus_hint.duration
              cfg.focus_hint.fade_steps now s₁ hq h₁
          exact ih_tb cfg s₁ b cfg.focus_hint.brightness 1 cfg.focus_hint.duration
            cfg.focus_hint.fade_steps now s' hq₁ h₂
        · obtain ⟨s₁, h₁, h₂⟩ := optBind_some h
          injection h₁ with h₁; subst h₁
          exact ih_tb cfg _ b cfg.focus_hint.brightness 1 cfg.focus_hint.duration
            cfg.focus_hint.fade_steps now s' hq h₂
      · exact ih_tb cfg s b cfg.focus_hint.brightness 1 cfg.focus_hint.duration
          cfg.focus_hint.fade_steps now s' hq h
    have htb : ∀ cfg s node lf lt dur st now s', QInv s →
        transition_brightness (fuel + 1) cfg s node lf lt dur st now = some s' →
          QInv s' := by
      intro cfg s node lf lt dur st now s' hq h
      rw [transition_brightness] at h
      obtain ⟨s₁, h₁, h₂⟩ := optBind_some h
      injection h₂ with h₂; subst h₂
      exact QInv_transition_brightness_steps (ih_snd cfg s node lf now s₁ hq h₁)
    have hsnd : ∀ cfg s node f now s', QInv s →
        set_node_display_brightness (fuel + 1) cfg s node f now = some s' →
          QInv s' := by
      intro cfg s node f now s' hq h
      cases node with
      | none =>
        rw [set_node_display_brightness] at h
        injection h with h; subst h; exact hq
      | some ri =>
        rw [set_node_display_brightness] at h
        exact ih_ssb cfg s ri f now s' hq h
    have hssb : ∀ cfg s ri f now s', QInv s →
        send_setbrightness (fuel + 1) cfg s ri f now = some s' → QInv s' := by
      intro cfg s ri f now s' hq h
      rw [send_setbrightness] at h
      exact ih_enq cfg s ri _ now s' hq h
    have htc : ∀ cfg s a b now s', QInv s →
        transfer_clipboard (fuel + 1) cfg s a b now = some s' → QInv s' := by
      intro cfg s a b now s' hq h
      match a, b with
      | none, none =>
        rw [transfer_clipboard] at h
        injection h with h; subst h; exact hq
      | some fi, b =>
        rw [transfer_clipboard] at h
        exact ih_enq cfg s fi _ now s' hq h
      | none, some ti =>
        rw [transfer_clipboard] at h
        exact ih_enq cfg s ti _ now s' hq h
    have html : ∀ cfg s ri modkeys pr now s', QInv s →
        transfer_modifiers_loop (fuel + 1) cfg s ri modkeys pr now = some s' →
          QInv s' := by
      intro cfg s ri modkeys pr now s' hq h
      match modkeys with
      | [] =>
        rw [transfer_modifiers_loop] at h
        injection h with h; subst h; exact hq
      | k :: ks =>
        rw [transfer_modifiers_loop] at h
        obtain ⟨s₁, h₁, h₂⟩ := optBind_some h
        exact ih_tml cfg s₁ ri ks pr now s' (ih_enq cfg s ri _ now s₁ hq h₁) h₂
    have htm : ∀ cfg s a b modkeys now s', QInv s →
        transfer_modifiers (fuel + 1) cfg s a b modkeys now = some s' → QInv s' := by
      intro cfg s a b modkeys now s' hq h
      match a with
      | none =>
        rw [transfer_modifiers] at h
        obtain ⟨s₁, h₁, h₂⟩ := optBind_some h
        injection h₁ with h₁; subst h₁
        cases b with
        | none =>
          dsimp only [] at h₂
          injection h₂ with h₂; subst h₂; exact hq
        | some ti =>
          dsimp only [] at h₂
          exact ih_tml cfg _ ti modkeys PR_PRESS now s' hq h₂
      | some fi =>
        rw [transfer_modifiers] at h
        obtain ⟨s₁, h₁, h₂⟩ := optBind_some h
        have hq₁ := ih_tml cfg s fi modkeys PR_RELEASE now s₁ hq h₁
        cases b with
        | none =>
          dsimp only [] at h₂
          injection h₂ with h₂; subst h₂; exact hq₁
        | some ti =>
          dsimp only [] at h₂
          exact ih_tml cfg s₁ ti modkeys PR_PRESS now s' hq₁ h₂
    have hfnb : ∀ cfg s st modkeys fh now p, QInv s →
        focus_node_body (fuel + 1) cfg s st modkeys fh now = some p → QInv p.1 := by
      intro cfg s st modkeys fh now p hq h
      rw [focus_node_body] at h
      split at h
      · obtain ⟨s₁, h₁, h₂⟩ := optBind_some h
        have hq₁ := ih_ind cfg s s.focused_remote st now s₁ hq h₁
        dsimp only [] at h₂
        split at h₂
        · injection h₂ with h₂; subst h₂; exact hq₁
        · obtain ⟨s₄, h₄, h₅⟩ := optBind_some h₂
          obtain ⟨s₅, h₅x, h₆⟩ := optBind_some h₅
          injection h₆ with h₆; subst h₆
          have hq₄ := ih_tc cfg _ _ st now s₄ (QInv_focus_node_grab_warp hq₁) h₄
          exact ih_tm cfg s₄ s₄.focused_remote st modkeys now s₅ hq₄ h₅x
      · obtain ⟨s₁, h₁, h₂⟩ := optBind_some h
        injection h₁ with h₁; subst h₁
        dsimp only [] at h₂
        split at h₂
        · injection h₂ with h₂; subst h₂; exact hq
        · obtain ⟨s₄, h₄, h₅⟩ := optBind_some h₂
          obtain ⟨s₅, h₅x, h₆⟩ := optBind_some h₅
          injection h₆ with h₆; subst h₆
          have hq₄ := ih_tc cfg _ _ st now s₄ (QInv_focus_node_grab_warp hq) h₄
          exact ih_tm cfg s₄ s₄.focused_remote st modkeys now s₅ hq₄ h₅x
    have hfn : ∀ cfg s n modkeys fh now p, QInv s →
        focus_node (fuel + 1) cfg s n modkeys fh now = some p → QInv p.1 := by
      intro cfg s n modkeys fh now p hq h
      match n with
      | NT_NONE =>
        rw [focus_node] at h
        exact ih_fnb cfg s s.focused_remote modkeys fh now p hq h
      | NT_MASTER =>
        rw [focus_node] at h
        exact ih_fnb cfg s none modkeys fh now p hq h
      | NT_REMOTE ri =>
        rw [focus_node] at h
        split at h
        next => cases h
        next r hr =>
          split at h
          · injection h with h; subst h; exact hq
          · exact ih_fnb cfg s (some ri) modkeys fh now p hq h
      | NT_REMOTE_TMPNAME nm =>
        rw [focus_node] at h
        injection h with h; subst h; exact hq
    exact ⟨henq, hfail, hdisc, hfm, hfn, hfnb, hind, htb, hsnd, hssb, htc, htm, html⟩

/-- `setup_remote` preserves the queue invariant. -/
theorem QInv_setup_remote {fuel : Nat} {cfg : Config} {s : State} {ri now : Nat}
    {s' : State} (hq : QInv s) (h : setup_remote fuel cfg s ri now = some s') :
    QInv s' := by
  match fuel with
  | 0 => simp [setup_remote] at h
  | fuel + 1 =>
    rw [setup_remote] at h
    split at h
    next => cases h
    next r hr =>
      dsimp only [] at h
      have hq₁ : QInv { s with
          remotes := s.remotes.set ri { r with
            state := CS_SETTINGUP
            sshpid := (1 : Int)
            msgchan := ([] : List Message) } } :=
        QInv_set_remote hq (hq.2 r (mem_of_getElem_opt hr))
      exact (QInv_cascade fuel).1 cfg _ ri _ now s' hq₁ h

/-- `edgeswitch_reposition` preserves the queue invariant. -/
theorem QInv_edgeswitch_reposition {fuel : Nat} {cfg : Config} {s : State}
    {dir : direction_t} {x y : ℚ} {now : Nat} {s' : State} (hq : QInv s)
    (h : edgeswitch_reposition fuel cfg s dir x y now = some s') : QInv s' := by
  match fuel with
  | 0 => simp [edgeswitch_reposition] at h
  | fuel + 1 =>
    rw [edgeswitch_reposition.eq_def] at h
    dsimp only [] at h
    split at h
    next ri _ => exact (QInv_cascade fuel).1 cfg s ri _ now s' hq h
    next => injection h with h; subst h; exact hq

/-- `focus_neighbor` preserves the queue invariant. -/
theorem QInv_focus_neighbor {fuel : Nat} {cfg : Config} {s : State}
    {dir : direction_t} {modkeys : List Nat} {fh : Bool} {now : Nat}
    {p : State × Nat} (hq : QInv s)
    (h : focus_neighbor fuel cfg s dir modkeys fh now = some p) : QInv p.1 := by
  match fuel with
  | 0 => simp [focus_neighbor] at h
  | fuel + 1 =>
    rw [focus_neighbor] at h
    split at h
    next ri _ =>
      split at h
      next => cases h
      next r hr =>
        exact (QInv_cascade fuel).2.2.2.2.1 cfg s _ modkeys fh now p hq h
    next => exact (QInv_cascade fuel).2.2.2.2.1 cfg s _ modkeys fh now p hq h

/-- `trigger_edgeevent` preserves the queue invariant. -/
theorem QInv_trigger_edgeevent {fuel : Nat} {cfg : Config} {s : State}
    {o : histOwner} {dir : direction_t} {ev : edgeevent_t} {x y : ℚ} {now : Nat}
    {p : State × Nat} (hq : QInv s)
    (h : trigger_edgeevent fuel cfg s o dir ev x y now = some p) : QInv p.1 := by
  match fuel with
  | 0 => simp [trigger_edgeevent] at h
  | fuel + 1 =>
    rw [trigger_edgeevent] at h
    obtain ⟨es, hes, h⟩ := optBind_some h
    dsimp only [] at h
    split at h
    · injection h with h; subst h; exact hq
    · have hq₁ : QInv (setHist s o dir (record_edgeevent es ev now).1) :=
        QInv_setHist hq
      split at h
      · split at h
        next => cases h
        next t ht =>
          split at h
          · obtain ⟨q, hq₂, h⟩ := optBind_some h
            have hq₃ := QInv_focus_neighbor hq₁ hq₂
            split at h
            · obtain ⟨s₃, h₃, h⟩ := optBind_some h
              injection h with h; subst h
              exact QInv_edgeswitch_reposition hq₃ h₃
            · injection h with h; subst h; exact hq₃
          · injection h with h; subst h; exact hq₁
      · injection h with h; subst h; exact hq₁

/-- `check_edgeevents_dir` preserves the queue invariant. -/
theorem QInv_check_edgeevents_dir {fuel : Nat} {cfg : Config} {s : State}
    {o : histOwner} {om nm : Nat} {x y : ℚ} {now : Nat} {dir : direction_t}
    {s' : State} (hq : QInv s)
    (h : check_edgeevents_dir fuel cfg s o om nm x y now dir = some s') :
    QInv s' := by
  rw [check_edgeevents_dir] at h
  dsimp only [] at h
  split at h
  · obtain ⟨p, hp, h⟩ := optBind_some h
    injection h with h; subst h
    exact QInv_trigger_edgeevent hq hp
  · injection h with h; subst h; exact hq

/-- `check_edgeevents` preserves the queue invariant. -/
theorem QInv_check_edgeevents {fuel : Nat} {cfg : Config} {s : State}
    {o : histOwner} {om nm : Nat} {x y : ℚ} {now : Nat} {s' : State} (hq : QInv s)
    (h : check_edgeevents fuel cfg s o om nm x y now = some s') : QInv s' := by
  match fuel with
  | 0 => simp [check_edgeevents] at h
  | fuel + 1 =>
    rw [check_edgeevents] at h
    obtain ⟨s₁, h₁, h⟩ := optBind_some h
    obtain ⟨s₂, h₂, h⟩ := optBind_some h
    obtain ⟨s₃, h₃, h⟩ := optBind_some h
    exact QInv_check_edgeevents_dir
      (QInv_check_edgeevents_dir
        (QInv_check_edgeevents_dir (QInv_check_edgeevents_dir hq h₁) h₂) h₃) h

/-- `handle_message` preserves the queue invariant. -/
theorem QInv_handle_message {fuel : Nat} {cfg : Config} {s : State} {ri : Nat}
    {msg : Message} {now : Nat} {s' : State} (hq : QInv s)
    (h : handle_message fuel cfg s ri msg now = some s') : QInv s' := by
  match fuel with
  | 0 => simp [handle_message] at h
  | fuel + 1 =>
    rw [handle_message] at h
    split at h
    next => cases h
    next r hr =>
      have hfail := (QInv_cascade fuel).2.1
      split at h
      · -- MT_READY
        split at h
        · exact hfail cfg s ri now s' hq h
        · have hq₁ : QInv { s with
              remotes := s.remotes.set ri { r with state := CS_CONNECTED, failcount := 0 } } :=
            QInv_set_remote hq (hq.2 r (mem_of_getElem_opt hr))
          split at h
          · exact (QInv_cascade fuel).2.2.2.2.2.2.2.1 cfg _ (some ri) 1
              cfg.focus_hint.brightness cfg.focus_hint.duration
              cfg.focus_hint.fade_steps now s' hq₁ h
          · injection h with h; subst h; exact hq₁
      · -- MT_SETCLIPBOARD
        split at h
        · injection h with h; subst h; exact hq
        · dsimp only [] at h
          split at h
          next fi _ =>
            exact (QInv_cascade fuel).1 cfg _ fi _ now s'
              (show QInv (set_clipboard_from_buf msg.buf s) from hq) h
          next => injection h with h; subst h; exact hq
      · -- MT_LOGMSG
        injection h with h; subst h; exact hq
      · -- MT_EDGEMASKCHANGE
        split at h
        · exact hfail cfg s ri now s' hq h
        · exact QInv_check_edgeevents hq h
      · exact hfail cfg s ri now s' hq h

/-- `enqueue_scheduled_messages` preserves the queue invariant. -/
theorem QInv_enqueue_scheduled_messages {fuel : Nat} {cfg : Config} {s : State}
    {ri now : Nat} {s' : State} (hq : QInv s)
    (h : enqueue_scheduled_messages fuel cfg s ri now = some s') : QInv s' := by
  induction fuel generalizing s with
  | zero => simp [enqueue_scheduled_messages] at h
  | succ fuel ih =>
    rw [enqueue_scheduled_messages] at h
    split at h
    next => cases h
    next r hr =>
      split at h
      next => injection h with h; subst h; exact hq
      next msg rest hsm =>
        split at h
        · obtain ⟨s₂, h₂, h⟩ := optBind_some h
          have hrest : msgSorted rest := by
            have := hq.2 r (mem_of_getElem_opt hr)
            rw [hsm] at this
            exact List.Pairwise.of_cons this
          have hq₁ : QInv { s with
              remotes := s.remotes.set ri { r with scheduled_messages := rest } } :=
            QInv_set_remote hq hrest
          exact ih ((QInv_cascade fuel).1 cfg _ ri msg now s₂ hq₁ h₂) h
        · injection h with h; subst h; exact hq

/-- `run_scheduled_calls` preserves the queue invariant. -/
theorem QInv_run_scheduled_calls {when : Nat} {s : State} (hq : QInv s) :
    QInv (run_scheduled_calls when s) := by
  unfold run_scheduled_calls
  have : ∀ (l : List (GenSched.gcall ℚ)) (s : State), QInv s →
      s.scheduled_calls = l → QInv (run_scheduled_calls_go l when s) := by
    intro l
    induction l with
    | nil => intro s hq _; simpa [run_scheduled_calls_go] using hq
    | cons c rest ih =>
      intro s hq hl
      rw [run_scheduled_calls_go]
      split
      · refine ih _ ⟨?_, hq.2⟩ rfl
        show GenSched.timeSorted rest
        have := hq.1
        rw [hl] at this
        exact List.Pairwise.of_cons this
      · exact hq
  exact this _ s hq rfl

/-- The RECONNECT hotkey action preserves the queue invariant. -/
theorem QInv_reconnect_action {now : Nat} {s : State} (hq : QInv s) :
    QInv (reconnect_action now s) := by
  refine ⟨hq.1, ?_⟩
  intro r' hr'
  unfold reconnect_action at hr'
  simp only [List.mem_map] at hr'
  obtain ⟨r, hr, rfl⟩ := hr'
  exact hq.2 r hr

/-- Every event-loop step preserves the queue invariant. -/
theorem QInv_step {cfg : Config} {s s' : State} (hstep : Step cfg s s')
    (hq : QInv s) : QInv s' := by
  cases hstep with
  | timer_calls now => exact QInv_run_scheduled_calls hq
  | reconnect ri now fuel r s' hr hdue h => exact QInv_setup_remote hq h
  | move_scheduled ri now fuel r s' hr hlive h =>
    exact QInv_enqueue_scheduled_messages hq h
  | io_failure ri now fuel r s' hr hlive h =>
    exact (QInv_cascade fuel).2.1 cfg s ri now s' hq h
  | recv ri now fuel r msg s' hr hlive h => exact QInv_handle_message hq h
  | hotkey_switch dir modkeys now fuel s' d h =>
    exact QInv_focus_neighbor hq h
  | hotkey_switchto n modkeys now fuel s' d h =>
    exact (QInv_cascade fuel).2.2.2.2.1 cfg s n modkeys true now (s', d) hq h
  | hotkey_reconnect now => exact QInv_reconnect_action hq
  | master_edge om nm x y now fuel s' h => exact QInv_check_edgeevents hq h
  | platform_input clip mods mp => exact ⟨hq.1, hq.2⟩

/-- The initial state satisfies the queue invariant. -/
theorem QInv_init (nbrs : List (dirmap noderef)) : QInv (init_state nbrs) := by
  constructor
  · simp [init_state, GenSched.timeSorted]
  · intro r hr
    simp only [init_state, List.mem_map] at hr
    obtain ⟨n, hn, rfl⟩ := hr
    simp [initial_remote, msgSorted]

/-- **C6.**  (1) In every reachable state the scheduled-call queue and
each remote's scheduled-message queue are time-sorted (`QInv`), and
(2,3) insertion is stable with respect to equal timestamps: the new
entry is placed after every entry whose timestamp is ≤ its own, so
entries with equal timestamps fire in FIFO insertion order. -/
theorem c6_queue_order_invariant :
    (∀ (cfg : Config) (nbrs : List (dirmap noderef)) (s : State),
      Reachable cfg nbrs s → QInv s) ∧
    (∀ {α : Type} (c : GenSched.gcall α) (l : List (GenSched.gcall α)),
      GenSched.schedule_call c l =
        l.takeWhile (fun x => x.calltime ≤ c.calltime) ++
          c :: l.dropWhile (fun x => x.calltime ≤ c.calltime)) ∧
    (∀ (m : Message) (l : List Message),
      schedule_message m l =
        l.takeWhile (fun x => x.sendtime ≤ m.sendtime) ++
          m :: l.dropWhile (fun x => x.sendtime ≤ m.sendtime)) := by
  refine ⟨?_, fun c l => GenSched.schedule_call_stable c l,
    fun m l => schedule_message_stable m l⟩
  intro cfg nbrs s hr
  induction hr with
  | refl => exact QInv_init nbrs
  | tail hsteps hstep ih => exact QInv_step hstep ih

/-- Witness for C6 at concrete inputs: the initial single-remote state
is reachable and sorted; inserting a call at time 5 after an existing
time-5 call keeps FIFO order (likewise for a scheduled message). -/
theorem c6_queue_order_invariant_witness :
    QInv (init_state [dirmap.const NT_NONE]) ∧
      GenSched.schedule_call (⟨2, 5⟩ : GenSched.gcall Nat) [⟨1, 5⟩] =
        ([⟨1, 5⟩].takeWhile (fun x => x.calltime ≤ 5) ++
          ⟨2, 5⟩ :: [(⟨1, 5⟩ : GenSched.gcall Nat)].dropWhile
            (fun x => x.calltime ≤ 5)) ∧
      schedule_message { type := MT_SETBRIGHTNESS, sendtime := 5 }
          [{ type := MT_GETCLIPBOARD, sendtime := 5 }] =
        ([{ type := MT_GETCLIPBOARD, sendtime := 5 }].takeWhile
            (fun x => x.sendtime ≤ ({ type := MT_SETBRIGHTNESS, sendtime := 5 } : Message).sendtime) ++
          { type := MT_SETBRIGHTNESS, sendtime := 5 } ::
            [({ type := MT_GETCLIPBOARD, sendtime := 5 } : Message)].dropWhile
              (fun x => x.sendtime ≤ ({ type := MT_SETBRIGHTNESS, sendtime := 5 } : Message).sendtime)) :=
  ⟨c6_queue_order_invariant.1 ⟨NS_NO, ⟨FH_NONE, 1, 0, 0⟩, ⟨MS_NONE, 0, 0⟩,
      dirmap.const NT_NONE, 10⟩ [dirmap.const NT_NONE] _ Relation.ReflTransGen.refl,
    c6_queue_order_invariant.2.1 ⟨2, 5⟩ [⟨1, 5⟩],
    c6_queue_order_invariant.2.2 { type := MT_SETBRIGHTNESS, sendtime := 5 }
      [{ type := MT_GETCLIPBOARD, sendtime := 5 }]⟩

/-- **C2.**  Exponential-backoff reconnect schedule of `fail_remote`,
for a remote that is not currently focused (when the failing remote is
focused, `disconnect_remote` additionally returns focus to the master
first — the focus interplay is the subject of C1 — while the failure
arithmetic below is the same).  With `failcount = k − 1` before the
call (the k-th consecutive failure):
 * for 1 ≤ k ≤ 10 the remote ends FAILED with
   `next_reconnect_time = now + min(2^(k−1), 60) · 500000 μs`,
   i.e. delays 0.5, 1, 2, 4, 8, 16 s and then 30 s capped for
   failures 7–10 (the closing conjunct evaluates the schedule);
 * the 11th failure ends PERMFAILED with `next_reconnect_time`
   untouched, and a PERMFAILED remote is never eligible for the event
   loop's reconnect test (`reconnect_due`, main.c:1053). -/
theorem c2_fail_remote_backoff (fuel : Nat) (cfg : Config) (s : State)
    (ri now k : Nat) (r : Remote)
    (hr : s.remotes[ri]? = some r)
    (hnf : s.focused_remote ≠ some ri)
    (hfc : r.failcount = k - 1)
    (hk : 1 ≤ k) :
    (k ≤ 10 → ∃ s' r', fail_remote (fuel + 2) cfg s ri now = some s' ∧
        s'.remotes[ri]? = some r' ∧
        r'.state = CS_FAILED ∧ r'.failcount = k ∧
        r'.next_reconnect_time = now + min (2 ^ (k - 1)) 60 * 500000) ∧
    (k = 11 → ∃ s' r', fail_remote (fuel + 2) cfg s ri now = some s' ∧
        s'.remotes[ri]? = some r' ∧
        r'.state = CS_PERMFAILED ∧ r'.failcount = 11 ∧
        r'.next_reconnect_time = r.next_reconnect_time) ∧
    (∀ (rx : Remote) (t : Nat), rx.state = CS_PERMFAILED → ¬ reconnect_due rx t) ∧
    [1, 2, 3, 4, 5, 6, 7, 8, 9, 10].map
        (fun j => min (2 ^ (j - 1)) 60 * RECONNECT_INTERVAL_UNIT) =
      [500000, 1000000, 2000000, 4000000, 8000000, 16000000,
       30000000, 30000000, 30000000, 30000000] := by
  have hlt : ri < s.remotes.length := (List.getElem?_eq_some.mp hr).1
  set rclear : Remote := { r with
    msgchan := ([] : List Message)
    scheduled_messages := ([] : List Message)
    sshpid := (-1 : Int) } with hrclear
  have hd : disconnect_remote (fuel + 1) cfg s ri now =
      some { s with remotes := s.remotes.set ri rclear } := by
    rw [disconnect_remote]
    simp only [hr]
    rw [if_neg hnf]
  have hr1 : ({ s with remotes := s.remotes.set ri rclear } : State).remotes[ri]? =
      some rclear := by
    simp [List.getElem?_set, hlt]
  refine ⟨?_, ?_, ?_, by decide⟩
  · intro hk10
    set rfail : Remote := { rclear with
      failcount := rclear.failcount + 1
      state := CS_FAILED
      next_reconnect_time := now +
        (min (2 ^ (min (rclear.failcount + 1 - 1) 63)) MAX_RECONNECT_INTERVAL) *
          RECONNECT_INTERVAL_UNIT } with hrfail
    have hklt : ¬ (rclear.failcount + 1 > MAX_RECONNECT_ATTEMPTS) := by
      simp only [hrclear, MAX_RECONNECT_ATTEMPTS]
      omega
    refine ⟨{ s with remotes := (s.remotes.set ri rclear).set ri rfail }, rfail,
      ?_, ?_, rfl, ?_, ?_⟩
    · rw [fail_remote, hd]
      simp only [Option.bind_eq_bind, Option.some_bind, hr1]
      rw [if_neg hklt]
    · simp [List.getElem?_set, hlt]
    · simp only [hrfail, hrclear]
      simp only [hfc]
      omega
    · simp only [hrfail, hrclear]
      simp only [hfc]
      have h2 : min (k - 1 + 1 - 1) 63 = k - 1 := by omega
      simp only [h2, MAX_RECONNECT_INTERVAL, RECONNECT_INTERVAL_UNIT]
  · intro hk11
    subst hk11
    set rperm : Remote := { rclear with
      failcount := rclear.failcount + 1
      state := CS_PERMFAILED } with hrperm
    have hkgt : rclear.failcount + 1 > MAX_RECONNECT_ATTEMPTS := by
      simp only [hrclear, MAX_RECONNECT_ATTEMPTS]
      omega
    refine ⟨{ s with remotes := (s.remotes.set ri rclear).set ri rperm }, rperm,
      ?_, ?_, rfl, ?_, rfl⟩
    · rw [fail_remote, hd]
      simp only [Option.bind_eq_bind, Option.some_bind, hr1]
      rw [if_pos hkgt]
    · simp [List.getElem?_set, hlt]
    · simp only [hrperm, hrclear]
      simp only [hfc]
  · intro rx t hrx
    simp [reconnect_due, hrx]

/-- A neighborless direction map, used by the concrete scenarios. -/
def demo_nbrs : dirmap noderef := dirmap.const NT_NONE

/-- Witness for C2 at a concrete input: remote 0 of a fresh single-remote
state (failcount 0, not focused) suffers its 1st failure at time 999 and
is scheduled to reconnect at 999 + 500000 μs. -/
theorem c2_fail_remote_backoff_witness :
    (init_state [demo_nbrs]).remotes[0]? = some (initial_remote demo_nbrs) ∧
      (init_state [demo_nbrs]).focused_remote ≠ some 0 ∧
      (initial_remote demo_nbrs).failcount = 1 - 1 ∧
      (∃ s' r', fail_remote 12
            ⟨NS_NO, ⟨FH_NONE, 1, 0, 0⟩, ⟨MS_NONE, 0, 0⟩, demo_nbrs, 10⟩
            (init_state [demo_nbrs]) 0 999 = some s' ∧
          s'.remotes[0]? = some r' ∧
          r'.state = CS_FAILED ∧ r'.failcount = 1 ∧
          r'.next_reconnect_time = 999 + min (2 ^ (1 - 1)) 60 * 500000) :=
  ⟨by decide, by decide, by decide,
    (c2_fail_remote_backoff 10 ⟨NS_NO, ⟨FH_NONE, 1, 0, 0⟩, ⟨MS_NONE, 0, 0⟩,
        demo_nbrs, 10⟩ (init_state [demo_nbrs]) 0 999 1 (initial_remote demo_nbrs)
        (by decide) (by decide) (by decide) (by decide)).1 (by decide)⟩

/-- **C10.**  A SETCLIPBOARD message from a remote that is not CONNECTED
(e.g. still SETTINGUP) is ignored after logging: `handle_message`
returns the state completely unchanged — clipboard not set, nothing
forwarded, and the remote's state, failure counter and channel intact.
By contrast an unexpected message type (e.g. GETCLIPBOARD, which only
the master ever sends) takes the `fail_remote` path. -/
theorem c10_nonconnected_setclipboard_ignored (fuel : Nat) (cfg : Config)
    (s : State) (ri : Nat) (r : Remote) (msg : Message) (now : Nat)
    (hr : s.remotes[ri]? = some r)
    (hst : r.state ≠ CS_CONNECTED)
    (hty : msg.type = MT_SETCLIPBOARD) :
    handle_message (fuel + 1) cfg s ri msg now = some s ∧
      (∀ msg2 : Message, msg2.type = MT_GETCLIPBOARD →
        handle_message (fuel + 1) cfg s ri msg2 now = fail_remote fuel cfg s ri now) := by
  constructor
  · rw [handle_message]
    simp only [hr, hty]
    rw [if_pos hst]
  · intro msg2 hty2
    rw [handle_message]
    simp only [hr, hty2]

/-- Witness for C10: a SETCLIPBOARD from the still-SETTINGUP remote 0 of
a fresh state is dropped without any state change. -/
theorem c10_nonconnected_setclipboard_ignored_witness :
    (init_state [demo_nbrs]).remotes[0]? = some (initial_remote demo_nbrs) ∧
      (initial_remote demo_nbrs).state ≠ CS_CONNECTED ∧
      (Message.mk MT_SETCLIPBOARD 0 0 0 0 0 PR_PRESS 0 0 "stray").type = MT_SETCLIPBOARD ∧
      handle_message 7 ⟨NS_NO, ⟨FH_NONE, 1, 0, 0⟩, ⟨MS_NONE, 0, 0⟩, demo_nbrs, 10⟩
          (init_state [demo_nbrs]) 0
          (Message.mk MT_SETCLIPBOARD 0 0 0 0 0 PR_PRESS 0 0 "stray") 5 =
        some (init_state [demo_nbrs]) :=
  ⟨by decide, by decide, by decide,
    (c10_nonconnected_setclipboard_ignored 6
        ⟨NS_NO, ⟨FH_NONE, 1, 0, 0⟩, ⟨MS_NONE, 0, 0⟩, demo_nbrs, 10⟩
        (init_state [demo_nbrs]) 0 (initial_remote demo_nbrs)
        (Message.mk MT_SETCLIPBOARD 0 0 0 0 0 PR_PRESS 0 0 "stray") 5
        (by decide) (by decide) (by decide)).1⟩

/-- A connected remote with an empty outbound channel, used by the
concrete scenarios. -/
def demo_remote : Remote := { initial_remote demo_nbrs with
  state := CS_CONNECTED
  msgchan := ([] : List Message) }

/-- The two-remote state of the C4 counterexample: both remotes
CONNECTED with empty channels, clipboard `"hello"`, focus on master. -/
def c4_state : State := { init_state [demo_nbrs, demo_nbrs] with
  remotes := [demo_remote, demo_remote]
  clipboard := "hello" }

/-- **C4, counterexample.**  `transfer_clipboard` between two remotes
(remote 0 departing, remote 1 arriving): because of the `else if` in
main.c:414-423, only the GETCLIPBOARD to the departing remote 0 is
enqueued; the arriving remote 1's outbound channel stays empty — no
SETCLIPBOARD carrying the local clipboard ("hello") is sent to it,
refuting the claim's "both are sent". -/
theorem c4_remote_to_remote_counterexample :
    transfer_clipboard 5 ⟨NS_NO, ⟨FH_NONE, 1, 0, 0⟩, ⟨MS_NONE, 0, 0⟩,
        demo_nbrs, 10⟩ c4_state (some 0) (some 1) 7 =
      some { c4_state with
        remotes := [{ demo_remote with
          msgchan := [{ type := MT_GETCLIPBOARD }] }, demo_remote] } ∧
      ({ c4_state with
        remotes := [{ demo_remote with
          msgchan := [{ type := MT_GETCLIPBOARD }] }, demo_remote] } : State).remotes[1]?.map
        Remote.msgchan = some ([] : List Message) := by
  constructor
  · decide
  · decide

/-- **C4, amended.**  On a real focus switch: if the departing node is a
remote, a GETCLIPBOARD message is enqueued to it (whatever the arriving
node is); *otherwise*, if the arriving node is a remote, a SETCLIPBOARD
message carrying the local clipboard is enqueued to it.  On a
remote-to-remote switch only the GETCLIPBOARD to the old remote is sent
— the new remote receives the clipboard later via the asynchronous
SETCLIPBOARD response, which `handle_message` forwards to the
then-focused node.  (The backlog-room hypotheses rule out the overflow
path of `enqueue_message`.) -/
theorem c4_transfer_clipboard_amended (fuel : Nat) (cfg : Config) (s : State)
    (now : Nat) :
    (∀ (fi : Nat) (nto : Option Nat) (r : Remote),
      s.remotes[fi]? = some r → r.msgchan.length < cfg.send_backlog →
      transfer_clipboard (fuel + 2) cfg s (some fi) nto now =
        some { s with
          remotes := s.remotes.set fi
            { r with msgchan := r.msgchan ++ [{ type := MT_GETCLIPBOARD }] } }) ∧
    (∀ (ti : Nat) (r : Remote),
      s.remotes[ti]? = some r → r.msgchan.length < cfg.send_backlog →
      transfer_clipboard (fuel + 2) cfg s none (some ti) now =
        some { s with
          remotes := s.remotes.set ti
            { r with msgchan := r.msgchan ++
              [{ type := MT_SETCLIPBOARD, buf := get_clipboard_text s }] } }) ∧
    transfer_clipboard (fuel + 2) cfg s none none now = some s := by
  refine ⟨?_, ?_, by rw [transfer_clipboard]⟩
  · intro fi nto r hr hlen
    have hov : mc_enqueue_message cfg.send_backlog r.msgchan
        { type := MT_GETCLIPBOARD } =
        (r.msgchan ++ [{ type := MT_GETCLIPBOARD }], false) := by
      rw [mc_enqueue_message, if_neg (by omega)]
    rw [transfer_clipboard, enqueue_message]
    simp [hr, hov]
  · intro ti r hr hlen
    have hov : mc_enqueue_message cfg.send_backlog r.msgchan
        { type := MT_SETCLIPBOARD, buf := get_clipboard_text s } =
        (r.msgchan ++ [{ type := MT_SETCLIPBOARD, buf := get_clipboard_text s }],
          false) := by
      rw [mc_enqueue_message, if_neg (by omega)]
    rw [transfer_clipboard, enqueue_message]
    simp [hr, hov]

/-- Witness for the amended C4 at a concrete input: departing remote 0
of the two-remote state gets the GETCLIPBOARD. -/
theorem c4_transfer_clipboard_amended_witness :
    c4_state.remotes[0]? = some demo_remote ∧
      demo_remote.msgchan.length <
        (⟨NS_NO, ⟨FH_NONE, 1, 0, 0⟩, ⟨MS_NONE, 0, 0⟩, demo_nbrs, 10⟩ : Config).send_backlog ∧
      transfer_clipboard 5 ⟨NS_NO, ⟨FH_NONE, 1, 0, 0⟩, ⟨MS_NONE, 0, 0⟩,
          demo_nbrs, 10⟩ c4_state (some 0) (some 1) 7 =
        some { c4_state with
          remotes := c4_state.remotes.set 0
            { demo_remote with msgchan := demo_remote.msgchan ++
              [{ type := MT_GETCLIPBOARD }] } } :=
  ⟨by decide, by decide,
    (c4_transfer_clipboard_amended 3 ⟨NS_NO, ⟨FH_NONE, 1, 0, 0⟩, ⟨MS_NONE, 0, 0⟩,
        demo_nbrs, 10⟩ c4_state 7).1 0 (some 1) demo_remote (by decide) (by decide)⟩

/-- A channel with room accepts the message (no overflow). -/
theorem mc_enqueue_ok {quota : Nat} {q : List Message} (m : Message)
    (h : q.length < quota) : mc_enqueue_message quota q m = (q ++ [m], false) := by
  rw [mc_enqueue_message, if_neg (by omega)]

/-- `enqueue_message` on a channel with room: plain append. -/
theorem enqueue_message_ok (fuel : Nat) (cfg : Config) (s : State) (ri : Nat)
    (msg : Message) (now : Nat) (r : Remote)
    (hr : s.remotes[ri]? = some r)
    (hlen : r.msgchan.length < cfg.send_backlog) :
    enqueue_message (fuel + 1) cfg s ri msg now =
      some { s with
        remotes := s.remotes.set ri { r with msgchan := r.msgchan ++ [msg] } } := by
  rw [enqueue_message]
  simp [hr, mc_enqueue_ok msg hlen]

/-- The state of the C5 double-tap scenario: one CONNECTED right-hand
neighbor, clipboard `"x"`, focus on the master. -/
def c5_state : State := { init_state [demo_nbrs] with
  remotes := [demo_remote]
  clipboard := "x" }

/-- The C5 configuration: MULTITAP with 2 taps in a 400 ms window, the
master's right neighbor being remote 0. -/
def c5_cfg : Config :=
  { show_nullswitch := NS_NO
    focus_hint := ⟨FH_NONE, 1, 0, 0⟩
    mouseswitch := ⟨MS_MULTITAP, 2, 400000⟩
    master_neighbors := { demo_nbrs with right := NT_REMOTE 0 }
    send_backlog := 10 }

/-- The double-tap event sequence of the spec scenario —
ARRIVE(RIGHT)@1.0s, DEPART(RIGHT)@1.05s, ARRIVE(RIGHT)@1.2s at
screen-relative (1, 1) — on the master's RIGHT history. -/
def c5_run (cfg : Config) : Option (State × Nat) :=
  (trigger_edgeevent 30 cfg c5_state .master RIGHT EE_ARRIVE 1 1 1000000).bind
    (fun p => trigger_edgeevent 30 cfg p.1 .master RIGHT EE_DEPART 1 1 1050000) |>.bind
    (fun p => trigger_edgeevent 30 cfg p.1 .master RIGHT EE_ARRIVE 1 1 1200000)

/-- **C5.**  Multi-tap edge switching.
(1) For a recorded ARRIVE under MULTITAP, when `now` minus the history
entry `(num−1)·2` positions back is strictly below the window,
`trigger_edgeevent` continues as `focus_neighbor` in that direction
followed — on a real switch — by `edgeswitch_reposition`.
(2) `edgeswitch_reposition` with focus on a remote enqueues
SETMOUSEPOSSCREENREL with the opposite-edge coordinates: LEFT ⇒ (1, y),
RIGHT ⇒ (0, y), UP ⇒ (x, 1), DOWN ⇒ (x, 0).
(3) The spec's double-tap scenario: with N = 2 and a 400 ms window the
sequence ARRIVE@t0, DEPART@t0+50ms, ARRIVE@t0+200ms switches focus to
the right neighbor and enqueues SETCLIPBOARD then
SETMOUSEPOSSCREENREL(0, 1) to it; with a 100 ms window nothing
switches. -/
theorem c5_multitap_edge_switch :
    (∀ (fuel : Nat) (cfg : Config) (s : State) (o : histOwner)
      (dir : direction_t) (es : edge_state) (x y : ℚ) (now t0 : Nat),
      getHist s o dir = some es →
      cfg.mouseswitch.type = MS_MULTITAP →
      EE_ARRIVE ≠ es.last_evtype →
      get_edgehist_entry (record_edgeevent es EE_ARRIVE now).1
        ((cfg.mouseswitch.num - 1) * 2) = some t0 →
      now - t0 < cfg.mouseswitch.window →
      trigger_edgeevent (fuel + 1) cfg s o dir EE_ARRIVE x y now =
        (focus_neighbor fuel cfg
            (setHist s o dir (record_edgeevent es EE_ARRIVE now).1) dir
            (get_current_modifiers
              (setHist s o dir (record_edgeevent es EE_ARRIVE now).1)) false now).bind
          (fun p => if p.2 ≠ 0 then
              (edgeswitch_reposition fuel cfg p.1 dir x y now).bind
                (fun s₃ => some (s₃, 0))
            else some (p.1, 0))) ∧
    (∀ (fuel : Nat) (cfg : Config) (s : State) (ri : Nat) (r : Remote)
      (dir : direction_t) (x y : ℚ) (now : Nat),
      s.focused_remote = some ri →
      s.remotes[ri]? = some r →
      r.msgchan.length < cfg.send_backlog →
      edgeswitch_reposition (fuel + 2) cfg s dir x y now =
        some { s with
          remotes := s.remotes.set ri
            { r with msgchan := r.msgchan ++
              [{ type := MT_SETMOUSEPOSSCREENREL
                 xpos := (match dir with | LEFT => 1 | RIGHT => 0 | UP => x | DOWN => x)
                 ypos := (match dir with | LEFT => y | RIGHT => y | UP => 1 | DOWN => 0) }] } }) ∧
    (c5_run c5_cfg).map (fun p => p.1.focused_remote) = some (some 0) ∧
    (c5_run c5_cfg).map (fun p => p.1.remotes.map Remote.msgchan) =
      some [[{ type := MT_SETCLIPBOARD, buf := "x" },
             { type := MT_SETMOUSEPOSSCREENREL, xpos := 0, ypos := 1 }]] ∧
    (c5_run { c5_cfg with mouseswitch := ⟨MS_MULTITAP, 2, 100000⟩ }).map
      (fun p => p.1.focused_remote) = some none := by
  refine ⟨?_, ?_, by decide, by decide, by decide⟩
  · intro fuel cfg s o dir es x y now t0 hes hms hacc ht0 hwin
    have hrec : record_edgeevent es EE_ARRIVE now =
        ((record_edgeevent es EE_ARRIVE now).1, 0) := by
      rw [record_edgeevent, if_neg hacc]
    rw [trigger_edgeevent]
    simp only [hes, Option.bind_eq_bind, Option.some_bind]
    rw [hrec]
    rw [if_neg (by simp)]
    rw [if_pos (⟨hms, trivial⟩ : cfg.mouseswitch.type = MS_MULTITAP ∧ True)]
    dsimp only []
    simp only [ht0]
    rw [if_pos hwin]
  · intro fuel cfg s ri r dir x y now hfoc hr hlen
    cases dir <;>
      · rw [edgeswitch_reposition.eq_def]
        simp only [hfoc]
        rw [enqueue_message_ok fuel cfg s ri _ now r hr hlen, hfoc]

/-- The master-side state right before the scenario's third edge event:
the RIGHT history holds the first tap's ARRIVE at 1.0 s and the DEPART
at 1.05 s. -/
def c5_mid : State := { c5_state with
  master_edgehist := (dirmap.const init_edge_state).set RIGHT
    ⟨2, [0, 1000000, 1050000, 0, 0, 0], EE_DEPART⟩ }

/-- Witness for C5 at a concrete input: the scenario's closing ARRIVE at
1.2 s, 200 ms after the first tap, runs the focus-neighbor switch. -/
theorem c5_multitap_edge_switch_witness :
    getHist c5_mid .master RIGHT =
      some ⟨2, [0, 1000000, 1050000, 0, 0, 0], EE_DEPART⟩ ∧
      c5_cfg.mouseswitch.type = MS_MULTITAP ∧
      EE_ARRIVE ≠ (⟨2, [0, 1000000, 1050000, 0, 0, 0], EE_DEPART⟩ : edge_state).last_evtype ∧
      get_edgehist_entry (record_edgeevent
          ⟨2, [0, 1000000, 1050000, 0, 0, 0], EE_DEPART⟩ EE_ARRIVE 1200000).1
        ((c5_cfg.mouseswitch.num - 1) * 2) = some 1000000 ∧
      1200000 - 1000000 < c5_cfg.mouseswitch.window ∧
      trigger_edgeevent 30 c5_cfg c5_mid .master RIGHT EE_ARRIVE 1 1 1200000 =
        (focus_neighbor 29 c5_cfg
            (setHist c5_mid .master RIGHT
              (record_edgeevent ⟨2, [0, 1000000, 1050000, 0, 0, 0], EE_DEPART⟩
                EE_ARRIVE 1200000).1) RIGHT
            (get_current_modifiers
              (setHist c5_mid .master RIGHT
                (record_edgeevent ⟨2, [0, 1000000, 1050000, 0, 0, 0], EE_DEPART⟩
                  EE_ARRIVE 1200000).1)) false 1200000).bind
          (fun p => if p.2 ≠ 0 then
              (edgeswitch_reposition 29 c5_cfg p.1 RIGHT 1 1 1200000).bind
                (fun s₃ => some (s₃, 0))
            else some (p.1, 0)) :=
  ⟨by decide, by decide, by decide, by decide, by decide,
    c5_multitap_edge_switch.1 29 c5_cfg c5_mid .master RIGHT
      ⟨2, [0, 1000000, 1050000, 0, 0, 0], EE_DEPART⟩ 1 1 1200000 1000000
      (by decide) (by decide) (by decide) (by decide) (by decide)⟩

/-- Inserting a message no earlier than everything queued appends it. -/
theorem schedule_message_append (m : Message) (l : List Message)
    (h : ∀ x ∈ l, x.sendtime ≤ m.sendtime) : schedule_message m l = l ++ [m] := by
  induction l with
  | nil => simp [schedule_message]
  | cons b t ih =>
    have hb : b.sendtime ≤ m.sendtime := h b (List.mem_cons_self _ _)
    rw [schedule_message, if_neg (by omega)]
    rw [ih (fun x hx => h x (List.mem_cons_of_mem _ hx))]
    simp

/-- Inserting a call no earlier than everything queued appends it. -/
theorem schedule_call_append {α : Type} (c : GenSched.gcall α)
    (l : List (GenSched.gcall α)) (h : ∀ x ∈ l, x.calltime ≤ c.calltime) :
    GenSched.schedule_call c l = l ++ [c] := by
  induction l with
  | nil => simp [GenSched.schedule_call]
  | cons b t ih =>
    have hb : b.calltime ≤ c.calltime := h b (List.mem_cons_self _ _)
    rw [GenSched.schedule_call, if_neg (by omega)]
    rw [ih (fun x hx => h x (List.mem_cons_of_mem _ hx))]
    simp

/-- One remote-side `schedule_brightness_change`: appends the message
when its send time dominates the queue, leaving other remotes alone. -/
theorem schedule_brightness_change_remote {s : State} {ri : Nat} {r : Remote}
    (f : ℚ) (when : Nat) (hr : s.remotes[ri]? = some r)
    (hle : ∀ m ∈ r.scheduled_messages, m.sendtime ≤ when) :
    (schedule_brightness_change (some ri) f when s).remotes[ri]? =
      some { r with scheduled_messages := r.scheduled_messages ++
        [{ type := MT_SETBRIGHTNESS, brightness := f, sendtime := when }] } ∧
      ∀ j, j ≠ ri → (schedule_brightness_change (some ri) f when s).remotes[j]? =
        s.remotes[j]? := by
  have hlt : ri < s.remotes.length := (List.getElem?_eq_some.mp hr).1
  unfold schedule_brightness_change modifyRemote
  simp only [hr]
  constructor
  · have happ := schedule_message_append
      { type := MT_SETBRIGHTNESS, brightness := f, sendtime := when }
      r.scheduled_messages (fun x hx => hle x hx)
    simp [List.getElem?_set, hlt, happ]
  · intro j hj
    rw [List.getElem?_set]
    rw [if_neg (Ne.symm hj)]
/-! ### C7: brightness fades -/

/-- `Rat.floor` agrees with Mathlib's `⌊·⌋` on ℚ. -/
theorem ratFloor_eq_intFloor (q : ℚ) : q.floor = ⌊q⌋ := rfl

/-- The interpolated event-time offsets `⌊(i/S)·D⌋` are monotone in `i`. -/
theorem brightness_time_mono (steps dur : Nat) {i j : Nat} (h : i ≤ j) :
    ((i : ℚ) / steps * dur).floor.toNat ≤ ((j : ℚ) / steps * dur).floor.toNat := by
  have h1 : (i : ℚ) / steps * dur ≤ (j : ℚ) / steps * dur := by
    gcongr
  rw [ratFloor_eq_intFloor, ratFloor_eq_intFloor]
  exact Int.toNat_le_toNat (Int.floor_le_floor h1)

/-- Every interpolated event-time offset is at most the duration. -/
theorem brightness_time_le (i steps dur : Nat) (h : i ≤ steps) :
    ((i : ℚ) / steps * dur).floor.toNat ≤ dur := by
  rcases Nat.eq_zero_or_pos steps with hs | hs
  · subst hs; norm_num [ratFloor_eq_intFloor]
  · have hq : (0 : ℚ) < steps := by exact_mod_cast hs
    have h1 : (i : ℚ) / steps * dur ≤ ((dur : ℕ) : ℚ) := by
      calc (i : ℚ) / steps * dur ≤ 1 * dur := by
            apply mul_le_mul_of_nonneg_right _ (by positivity)
            rw [div_le_one hq]; exact_mod_cast h
        _ = ((dur : ℕ) : ℚ) := by simp
    rw [ratFloor_eq_intFloor]
    calc ⌊(i : ℚ) / steps * dur⌋.toNat ≤ ⌊((dur : ℕ) : ℚ)⌋.toNat :=
          Int.toNat_le_toNat (Int.floor_le_floor h1)
      _ = dur := by rw [Int.floor_natCast]; simp

/-- `schedule_brightness_change` never touches the local display. -/
theorem schedule_brightness_change_display (node : Option Nat) (f : ℚ) (when : Nat)
    (s : State) :
    (schedule_brightness_change node f when s).display_brightness =
      s.display_brightness := by
  cases node with
  | none => rfl
  | some ri =>
    show (modifyRemote s ri _).display_brightness = _
    unfold modifyRemote
    cases s.remotes[ri]? <;> rfl

/-- Folding `schedule_brightness_change`s never touches the local display. -/
theorem fold_schedule_brightness_display (node : Option Nat) (lvl : Nat → ℚ)
    (tfun : Nat → Nat) (l : List Nat) :
    ∀ s : State,
      (l.foldl (fun acc i =>
        schedule_brightness_change node (lvl i) (tfun i) acc) s).display_brightness =
        s.display_brightness := by
  induction l with
  | nil => intro s; rfl
  | cons i is ih =>
    intro s
    rw [List.foldl_cons, ih]
    exact schedule_brightness_change_display node (lvl i) (tfun i) s

/-- Folding remote-side `schedule_brightness_change`s at nondecreasing
times that dominate the scheduled queue appends the corresponding
messages in order; other remotes are untouched. -/
theorem fold_schedule_brightness_remote (ri : Nat) (lvl : Nat → ℚ)
    (tfun : Nat → Nat) (l : List Nat) :
    ∀ (s : State) (r : Remote),
      s.remotes[ri]? = some r →
      (∀ i ∈ l, ∀ m ∈ r.scheduled_messages, m.sendtime ≤ tfun i) →
      l.Pairwise (fun i j => tfun i ≤ tfun j) →
      ((l.foldl (fun acc i =>
          schedule_brightness_change (some ri) (lvl i) (tfun i) acc) s).remotes[ri]? =
        some { r with
               scheduled_messages := r.scheduled_messages ++
                 l.map (fun i =>
                   { type := MT_SETBRIGHTNESS
                     brightness := lvl i
                     sendtime := tfun i }) } ∧
      ∀ j, j ≠ ri →
        (l.foldl (fun acc i =>
          schedule_brightness_change (some ri) (lvl i) (tfun i) acc) s).remotes[j]? =
          s.remotes[j]?) := by
  induction l with
  | nil =>
    intro s r hr _ _
    refine ⟨?_, fun j _ => rfl⟩
    simpa using hr
  | cons i is ih =>
    intro s r hr hle hpw
    obtain ⟨h1, h2⟩ := schedule_brightness_change_remote (lvl i) (tfun i) hr
      (fun m hm => hle i (List.mem_cons_self _ _) m hm)
    obtain ⟨hpw1, hpw2⟩ := List.pairwise_cons.mp hpw
    have hle' : ∀ i' ∈ is,
        ∀ m ∈ ({ r with scheduled_messages := r.scheduled_messages ++
          [{ type := MT_SETBRIGHTNESS, brightness := lvl i, sendtime := tfun i }] } :
            Remote).scheduled_messages, m.sendtime ≤ tfun i' := by
      intro i' hi' m hm
      rcases List.mem_append.mp hm with hm | hm
      · exact hle i' (List.mem_cons_of_mem _ hi') m hm
      · have hmi :
            m = { type := MT_SETBRIGHTNESS, brightness := lvl i, sendtime := tfun i } := by
          simpa using hm
        subst hmi
        exact hpw1 i' hi'
    obtain ⟨h3, h4⟩ := ih _ _ h1 hle' hpw2
    constructor
    · rw [List.foldl_cons, h3]
      simp
    · intro j hj
      rw [List.foldl_cons, h4 j hj, h2 j hj]

/-- Master-side `schedule_brightness_change` with a dominating time:
plain append on the scheduler queue. -/
theorem schedule_brightness_change_master (f : ℚ) (when : Nat) (s : State)
    (hle : ∀ c ∈ s.scheduled_calls, c.calltime ≤ when) :
    schedule_brightness_change none f when s =
      { s with scheduled_calls := s.scheduled_calls ++ [⟨f, when⟩] } := by
  unfold schedule_brightness_change
  rw [schedule_call_append ⟨f, when⟩ s.scheduled_calls hle]

/-- Folding master-side `schedule_brightness_change`s at nondecreasing
dominating times appends the corresponding scheduled calls in order. -/
theorem fold_schedule_brightness_master (lvl : Nat → ℚ) (tfun : Nat → Nat)
    (l : List Nat) :
    ∀ s : State,
      (∀ i ∈ l, ∀ c ∈ s.scheduled_calls, c.calltime ≤ tfun i) →
      l.Pairwise (fun i j => tfun i ≤ tfun j) →
      l.foldl (fun acc i =>
          schedule_brightness_change none (lvl i) (tfun i) acc) s =
        { s with scheduled_calls := s.scheduled_calls ++
            l.map (fun i => ⟨lvl i, tfun i⟩) } := by
  induction l with
  | nil =>
    intro s _ _
    simp
  | cons i is ih =>
    intro s hle hpw
    obtain ⟨hpw1, hpw2⟩ := List.pairwise_cons.mp hpw
    have hle1 : ∀ c ∈ s.scheduled_calls, c.calltime ≤ tfun i :=
      fun c hc => hle i (List.mem_cons_self _ _) c hc
    have hle' : ∀ i' ∈ is,
        ∀ c ∈ ({ s with scheduled_calls := s.scheduled_calls ++
          [⟨lvl i, tfun i⟩] } : State).scheduled_calls, c.calltime ≤ tfun i' := by
      intro i' hi' c hc
      rcases List.mem_append.mp hc with hc | hc
      · exact hle i' (List.mem_cons_of_mem _ hi') c hc
      · have hci : c = ⟨lvl i, tfun i⟩ := by simpa using hc
        subst hci
        exact hpw1 i' hi'
    rw [List.foldl_cons, schedule_brightness_change_master (lvl i) (tfun i) s hle1,
      ih _ hle' hpw2]
    simp
/-- `transition_brightness_steps` on a remote with an empty scheduled
queue: the S−1 interpolated SETBRIGHTNESS messages followed by the
final one, in send-time order; other remotes and the local display are
untouched. -/
theorem transition_brightness_steps_remote (ri : Nat) (lfrom lto : ℚ)
    (dur steps now : Nat) (s : State) (r : Remote)
    (hr : s.remotes[ri]? = some r) (hsched : r.scheduled_messages = []) :
    ((transition_brightness_steps (some ri) lfrom lto dur steps now s).remotes[ri]? =
      some { r with
             scheduled_messages :=
               (List.range' 1 (steps - 1)).map (fun i =>
                 { type := MT_SETBRIGHTNESS
                   brightness := lfrom + (i : ℚ) / steps * (lto - lfrom)
                   sendtime := now + ((i : ℚ) / steps * dur).floor.toNat }) ++
               [{ type := MT_SETBRIGHTNESS, brightness := lto, sendtime := now + dur }] } ∧
    (∀ j, j ≠ ri →
      (transition_brightness_steps (some ri) lfrom lto dur steps now s).remotes[j]? =
        s.remotes[j]?) ∧
    (transition_brightness_steps (some ri) lfrom lto dur steps now s).display_brightness =
      s.display_brightness) := by
  have hpw : (List.range' 1 (steps - 1)).Pairwise
      (fun (i j : ℕ) => now + ((i : ℚ) / steps * dur).floor.toNat ≤
        now + ((j : ℚ) / steps * dur).floor.toNat) := by
    refine List.Pairwise.imp ?_ (List.pairwise_lt_range' 1 (steps - 1))
    intro i j hij
    exact Nat.add_le_add_left (brightness_time_mono steps dur (Nat.le_of_lt hij)) now
  have hle0 : ∀ i ∈ List.range' 1 (steps - 1), ∀ m ∈ r.scheduled_messages,
      m.sendtime ≤ now + ((i : ℚ) / steps * dur).floor.toNat := by
    simp [hsched]
  obtain ⟨h1, h2⟩ := fold_schedule_brightness_remote ri
    (fun i => lfrom + (i : ℚ) / steps * (lto - lfrom))
    (fun i => now + ((i : ℚ) / steps * dur).floor.toNat)
    (List.range' 1 (steps - 1)) s r hr hle0 hpw
  have hfin : ∀ m ∈ ({ r with
      scheduled_messages := r.scheduled_messages ++
        (List.range' 1 (steps - 1)).map (fun (i : ℕ) =>
          ({ type := MT_SETBRIGHTNESS
             brightness := lfrom + (i : ℚ) / steps * (lto - lfrom)
             sendtime := now + ((i : ℚ) / steps * dur).floor.toNat } : Message)) } :
        Remote).scheduled_messages, m.sendtime ≤ now + dur := by
    intro m hm
    rcases List.mem_append.mp hm with hm | hm
    · rw [hsched] at hm; simp at hm
    · obtain ⟨i, hi, rfl⟩ := List.mem_map.mp hm
      obtain ⟨h1i, h2i⟩ := List.mem_range'_1.mp hi
      exact Nat.add_le_add_left (brightness_time_le i steps dur (by omega)) now
  obtain ⟨hstep1, hstep2⟩ := schedule_brightness_change_remote lto (now + dur) h1 hfin
  have hdef : transition_brightness_steps (some ri) lfrom lto dur steps now s =
      schedule_brightness_change (some ri) lto (now + dur)
        ((List.range' 1 (steps - 1)).foldl (fun acc (i : ℕ) =>
          schedule_brightness_change (some ri) (lfrom + (i : ℚ) / steps * (lto - lfrom))
            (now + ((i : ℚ) / steps * dur).floor.toNat) acc) s) := rfl
  rw [hdef]
  refine ⟨?_, ?_, ?_⟩
  · rw [hstep1]
    simp [hsched]
  · intro j hj
    rw [hstep2 j hj, h2 j hj]
  · rw [schedule_brightness_change_display]
    exact fold_schedule_brightness_display (some ri)
      (fun i => lfrom + (i : ℚ) / steps * (lto - lfrom))
      (fun i => now + ((i : ℚ) / steps * dur).floor.toNat)
      (List.range' 1 (steps - 1)) s

/-- `transition_brightness_steps` on the master with an empty scheduler
queue: the S−1 interpolated `set_brightness_cb` calls followed by the
final one, in fire-time order. -/
theorem transition_brightness_steps_master (lfrom lto : ℚ) (dur steps now : Nat)
    (s : State) (hsched : s.scheduled_calls = []) :
    transition_brightness_steps none lfrom lto dur steps now s =
      { s with
        scheduled_calls :=
          (List.range' 1 (steps - 1)).map (fun i =>
            ⟨lfrom + (i : ℚ) / steps * (lto - lfrom),
              now + ((i : ℚ) / steps * dur).floor.toNat⟩) ++
          [⟨lto, now + dur⟩] } := by
  have hpw : (List.range' 1 (steps - 1)).Pairwise
      (fun (i j : ℕ) => now + ((i : ℚ) / steps * dur).floor.toNat ≤
        now + ((j : ℚ) / steps * dur).floor.toNat) := by
    refine List.Pairwise.imp ?_ (List.pairwise_lt_range' 1 (steps - 1))
    intro i j hij
    exact Nat.add_le_add_left (brightness_time_mono steps dur (Nat.le_of_lt hij)) now
  have hle0 : ∀ i ∈ List.range' 1 (steps - 1), ∀ c ∈ s.scheduled_calls,
      c.calltime ≤ now + ((i : ℚ) / steps * dur).floor.toNat := by
    simp [hsched]
  have hfold := fold_schedule_brightness_master
    (fun i => lfrom + (i : ℚ) / steps * (lto - lfrom))
    (fun i => now + ((i : ℚ) / steps * dur).floor.toNat)
    (List.range' 1 (steps - 1)) s hle0 hpw
  simp only [] at hfold
  have hfin : ∀ c ∈ ({ s with
      scheduled_calls := s.scheduled_calls ++
        (List.range' 1 (steps - 1)).map (fun (i : ℕ) =>
          (⟨lfrom + (i : ℚ) / steps * (lto - lfrom),
            now + ((i : ℚ) / steps * dur).floor.toNat⟩ : GenSched.gcall ℚ)) } :
        State).scheduled_calls, c.calltime ≤ now + dur := by
    intro c hc
    rcases List.mem_append.mp hc with hc | hc
    · rw [hsched] at hc; simp at hc
    · obtain ⟨i, hi, rfl⟩ := List.mem_map.mp hc
      obtain ⟨h1i, h2i⟩ := List.mem_range'_1.mp hi
      exact Nat.add_le_add_left (brightness_time_le i steps dur (by omega)) now
  have hstep := schedule_brightness_change_master lto (now + dur)
    ({ s with scheduled_calls := s.scheduled_calls ++
        (List.range' 1 (steps - 1)).map (fun (i : ℕ) =>
          (⟨lfrom + (i : ℚ) / steps * (lto - lfrom),
            now + ((i : ℚ) / steps * dur).floor.toNat⟩ : GenSched.gcall ℚ)) })
    hfin
  have hdef : transition_brightness_steps none lfrom lto dur steps now s =
      schedule_brightness_change none lto (now + dur)
        ((List.range' 1 (steps - 1)).foldl (fun acc (i : ℕ) =>
          schedule_brightness_change none (lfrom + (i : ℚ) / steps * (lto - lfrom))
            (now + ((i : ℚ) / steps * dur).floor.toNat) acc) s) := rfl
  rw [hdef, hfold, hstep]
  simp [hsched]
/-- `transition_brightness` on a remote with channel room and an empty
scheduled queue: SETBRIGHTNESS(`lfrom`) lands on the outbound channel at
once and the interpolated fade schedule on the scheduled queue; other
remotes and the master display are untouched. -/
theorem transition_brightness_remote_ok (fuel : Nat) (cfg : Config) (s : State)
    (ri : Nat) (r : Remote) (lfrom lto : ℚ) (dur steps now : Nat)
    (hr : s.remotes[ri]? = some r) (hroom : r.msgchan.length < cfg.send_backlog)
    (hsched : r.scheduled_messages = []) :
    ∃ s', transition_brightness (fuel + 4) cfg s (some ri) lfrom lto dur steps now =
        some s' ∧
      s'.remotes[ri]? = some { r with
        msgchan := r.msgchan ++ [{ type := MT_SETBRIGHTNESS, brightness := lfrom }]
        scheduled_messages :=
          (List.range' 1 (steps - 1)).map (fun (i : ℕ) =>
            { type := MT_SETBRIGHTNESS
              brightness := lfrom + (i : ℚ) / steps * (lto - lfrom)
              sendtime := now + ((i : ℚ) / steps * dur).floor.toNat }) ++
          [{ type := MT_SETBRIGHTNESS, brightness := lto, sendtime := now + dur }] } ∧
      (∀ j, j ≠ ri → s'.remotes[j]? = s.remotes[j]?) ∧
      s'.display_brightness = s.display_brightness := by
  have hlt : ri < s.remotes.length := (List.getElem?_eq_some.mp hr).1
  have henq := enqueue_message_ok fuel cfg s ri
    { type := MT_SETBRIGHTNESS, brightness := lfrom } now r hr hroom
  have hset : set_node_display_brightness (fuel + 3) cfg s (some ri) lfrom now =
      some { s with
             remotes := s.remotes.set ri { r with
               msgchan := r.msgchan ++ [{ type := MT_SETBRIGHTNESS, brightness := lfrom }] } } :=
    henq
  have htr : transition_brightness (fuel + 4) cfg s (some ri) lfrom lto dur steps now =
      some (transition_brightness_steps (some ri) lfrom lto dur steps now
        { s with
          remotes := s.remotes.set ri { r with
            msgchan := r.msgchan ++ [{ type := MT_SETBRIGHTNESS, brightness := lfrom }] } }) := by
    rw [transition_brightness, hset]
    simp only [Option.bind_eq_bind, Option.some_bind]
  have hr₂ : ({ s with
      remotes := s.remotes.set ri { r with
        msgchan := r.msgchan ++ [{ type := MT_SETBRIGHTNESS, brightness := lfrom }] } } :
        State).remotes[ri]? =
      some { r with
             msgchan := r.msgchan ++ [{ type := MT_SETBRIGHTNESS, brightness := lfrom }] } := by
    simp [List.getElem?_set, hlt]
  obtain ⟨hs1, hs2, hs3⟩ := transition_brightness_steps_remote ri lfrom lto dur steps
    now _ _ hr₂ hsched
  refine ⟨_, htr, hs1, ?_, hs3⟩
  intro j hj
  rw [hs2 j hj]
  show (s.remotes.set ri _)[j]? = s.remotes[j]?
  rw [List.getElem?_set]
  rw [if_neg (Ne.symm hj)]

/-- `transition_brightness` on the master with an empty scheduler queue:
the local gamma setter runs at once and the interpolated fade schedule
lands on the scheduler queue. -/
theorem transition_brightness_master_ok (fuel : Nat) (cfg : Config) (s : State)
    (lfrom lto : ℚ) (dur steps now : Nat) (hsched : s.scheduled_calls = []) :
    transition_brightness (fuel + 2) cfg s none lfrom lto dur steps now =
      some { s with
        display_brightness := lfrom
        scheduled_calls :=
          (List.range' 1 (steps - 1)).map (fun (i : ℕ) =>
            ⟨lfrom + (i : ℚ) / steps * (lto - lfrom),
              now + ((i : ℚ) / steps * dur).floor.toNat⟩) ++
          [⟨lto, now + dur⟩] } := by
  have hset : set_node_display_brightness (fuel + 1) cfg s none lfrom now =
      some { s with display_brightness := lfrom } := rfl
  have hsteps := transition_brightness_steps_master lfrom lto dur steps now
    { s with display_brightness := lfrom } hsched
  rw [transition_brightness, hset]
  simp only [Option.bind_eq_bind, Option.some_bind]
  rw [hsteps]
/-- The configuration of C7's concrete scenario: DIM_INACTIVE focus
hint, brightness 3/10, duration 300 ms, 6 fade steps. -/
def c7_cfg : Config :=
  { show_nullswitch := NS_NO
    focus_hint :=
      { type := FH_DIM_INACTIVE
        brightness := 3 / 10
        duration := 300000
        fade_steps := 6 }
    mouseswitch := { type := MS_NONE, num := 0, window := 0 }
    master_neighbors := demo_nbrs
    send_backlog := 10 }

/-- A SETTINGUP remote whose SETUP handshake has already been flushed. -/
def c7_remote : Remote := { initial_remote demo_nbrs with msgchan := [] }

/-- The state of C7's concrete scenario: the single remote of `c7_remote`. -/
def c7_state : State := { init_state [demo_nbrs] with remotes := [c7_remote] }

/-- **C7.**  A brightness fade from `lfrom` to `lto` over duration `D`
with `S` fade steps sets the node to `lfrom` immediately — the local
gamma setter for the master, an immediate SETBRIGHTNESS message for a
remote — and schedules `S − 1` interpolated events at
`now + ⌊(i/S)·D⌋` with level `lfrom + (i/S)·(lto − lfrom)` for
`i = 1 … S−1`, plus one final event at `now + D` setting `lto`.
Concretely: with brightness 3/10, duration 300000 μs and fade_steps 6,
a remote becoming READY under FH_DIM_INACTIVE gets six scheduled
SETBRIGHTNESS messages at +50, +100, +150, +200, +250, +300 ms
interpolating 1 → 3/10. -/
theorem c7_brightness_fade :
    (∀ fuel cfg s ri r lfrom lto dur steps now,
      s.remotes[ri]? = some r →
      r.msgchan.length < cfg.send_backlog →
      r.scheduled_messages = [] →
      ∃ s', transition_brightness (fuel + 4) cfg s (some ri) lfrom lto dur steps now =
          some s' ∧
        s'.remotes[ri]? = some { r with
          msgchan := r.msgchan ++ [{ type := MT_SETBRIGHTNESS, brightness := lfrom }]
          scheduled_messages :=
            (List.range' 1 (steps - 1)).map (fun (i : ℕ) =>
              { type := MT_SETBRIGHTNESS
                brightness := lfrom + (i : ℚ) / steps * (lto - lfrom)
                sendtime := now + ((i : ℚ) / steps * dur).floor.toNat }) ++
            [{ type := MT_SETBRIGHTNESS, brightness := lto, sendtime := now + dur }] } ∧
        (∀ j, j ≠ ri → s'.remotes[j]? = s.remotes[j]?) ∧
        s'.display_brightness = s.display_brightness) ∧
    (∀ fuel cfg s lfrom lto dur steps now,
      s.scheduled_calls = [] →
      transition_brightness (fuel + 2) cfg s none lfrom lto dur steps now =
        some { s with
          display_brightness := lfrom
          scheduled_calls :=
            (List.range' 1 (steps - 1)).map (fun (i : ℕ) =>
              ⟨lfrom + (i : ℚ) / steps * (lto - lfrom),
                now + ((i : ℚ) / steps * dur).floor.toNat⟩) ++
            [⟨lto, now + dur⟩] }) ∧
    (∃ s' r', handle_message 10 c7_cfg c7_state 0 { type := MT_READY } 0 = some s' ∧
      s'.remotes[0]? = some r' ∧ r'.state = CS_CONNECTED ∧
      r'.msgchan = [{ type := MT_SETBRIGHTNESS, brightness := 1 }] ∧
      r'.scheduled_messages =
        [{ type := MT_SETBRIGHTNESS, brightness := 53 / 60, sendtime := 50000 },
         { type := MT_SETBRIGHTNESS, brightness := 23 / 30, sendtime := 100000 },
         { type := MT_SETBRIGHTNESS, brightness := 13 / 20, sendtime := 150000 },
         { type := MT_SETBRIGHTNESS, brightness := 8 / 15, sendtime := 200000 },
         { type := MT_SETBRIGHTNESS, brightness := 5 / 12, sendtime := 250000 },
         { type := MT_SETBRIGHTNESS, brightness := 3 / 10, sendtime := 300000 }]) := by
  refine ⟨fun fuel cfg s ri r lfrom lto dur steps now hr hroom hsched =>
      transition_brightness_remote_ok fuel cfg s ri r lfrom lto dur steps now
        hr hroom hsched,
    fun fuel cfg s lfrom lto dur steps now hsched =>
      transition_brightness_master_ok fuel cfg s lfrom lto dur steps now hsched, ?_⟩
  obtain ⟨s', htr, hri, hothers, hdisp⟩ := transition_brightness_remote_ok 5 c7_cfg
    ({ c7_state with remotes := c7_state.remotes.set 0 { c7_remote with
        state := CS_CONNECTED, failcount := 0 } }) 0
    ({ c7_remote with state := CS_CONNECTED, failcount := 0 })
    1 (3 / 10) 300000 6 0 (by decide) (by decide) (by decide)
  refine ⟨s', _, htr, hri, rfl, rfl, ?_⟩
  show (List.range' 1 (6 - 1)).map _ ++ _ = _
  norm_num [List.range', ratFloor_eq_intFloor]
  omega
theorem c7_brightness_fade_witness :
    c7_state.remotes[0]? = some c7_remote ∧
    c7_remote.msgchan.length < c7_cfg.send_backlog ∧
    c7_remote.scheduled_messages = [] ∧
    ∃ s', transition_brightness (0 + 4) c7_cfg c7_state (some 0) 1 0 300000 6 0 =
      some s' :=
  ⟨by decide, by decide, by decide,
    (c7_brightness_fade.1 0 c7_cfg c7_state 0 c7_remote 1 0 300000 6 0
        (by decide) (by decide) (by decide)).elim
      (fun s' h => ⟨s', h.1⟩)⟩
/-! ### C9: null focus switches -/

/-- C9 counterexample configuration: show-nullswitch always, FLASH_ACTIVE
focus hint (single fade step), outbound backlog quota 2. -/
def c9_cfg : Config :=
  { show_nullswitch := NS_YES
    focus_hint := { type := FH_FLASH_ACTIVE, brightness := 0, duration := 10, fade_steps := 1 }
    mouseswitch := { type := MS_NONE, num := 0, window := 0 }
    master_neighbors := demo_nbrs
    send_backlog := 2 }

/-- A CONNECTED remote whose outbound channel is full at quota 2. -/
def c9_remote : Remote := { initial_remote demo_nbrs with
  state := CS_CONNECTED
  msgchan := [{ type := MT_SETUP }, { type := MT_SETUP }] }

/-- The C9 counterexample state: the full remote is focused and grabbed. -/
def c9_state : State := { init_state [demo_nbrs] with
  remotes := [c9_remote]
  focused_remote := some 0
  grabbed := true }

/-- What the C9 counterexample run actually produces: a completed switch
back onto remote 0, which `fail_remote` left FAILED mid-call. -/
def c9_final : State :=
  { focused_remote := some 0
    remotes := [{ state := CS_FAILED
                  failcount := 1
                  next_reconnect_time := 500077
                  scheduled_messages := [{ type := MT_SETBRIGHTNESS, sendtime := 87, brightness := 1 }]
                  msgchan := [{ type := MT_GETCLIPBOARD }, { type := MT_SETCLIPBOARD }]
                  neighbors := demo_nbrs
                  edgehist := dirmap.const init_edge_state
                  sshpid := -1 }]
    scheduled_calls := [{ fn := 1, calltime := 87 }]
    saved_master_mousepos := { x := 0, y := 0 }
    grabbed := true
    mousepos := { x := 512, y := 384 }
    mousepos_screenrel := (0, 0)
    clipboard := ""
    cur_modifiers := []
    display_brightness := 0
    master_edgehist := dirmap.const init_edge_state }

/-- Like `c9_cfg` but DIM_INACTIVE with channel room (quota 10). -/
def c9ok_cfg : Config :=
  { show_nullswitch := NS_YES
    focus_hint := { type := FH_DIM_INACTIVE, brightness := 0, duration := 10, fade_steps := 1 }
    mouseswitch := { type := MS_NONE, num := 0, window := 0 }
    master_neighbors := demo_nbrs
    send_backlog := 10 }

/-- A CONNECTED remote with an empty outbound channel. -/
def c9ok_remote : Remote := { initial_remote demo_nbrs with
  state := CS_CONNECTED
  msgchan := [] }

/-- The no-overflow C9 state: `c9ok_remote` focused and grabbed. -/
def c9ok_state : State := { init_state [demo_nbrs] with
  remotes := [c9ok_remote]
  focused_remote := some 0
  grabbed := true
  clipboard := "keep" }

/-- The result of the no-overflow null switch: `c9ok_state` with only the
indication's SETBRIGHTNESS pair added on the focused remote. -/
def c9ok_final : State :=
  { focused_remote := some 0
    remotes := [{ state := CS_CONNECTED
                  failcount := 0
                  next_reconnect_time := 0
                  scheduled_messages := [{ type := MT_SETBRIGHTNESS, sendtime := 15, brightness := 1 }]
                  msgchan := [{ type := MT_SETBRIGHTNESS, brightness := 0 }]
                  neighbors := demo_nbrs
                  edgehist := dirmap.const init_edge_state
                  sshpid := 1 }]
    scheduled_calls := []
    saved_master_mousepos := { x := 0, y := 0 }
    grabbed := true
    mousepos := { x := 0, y := 0 }
    mousepos_screenrel := (0, 0)
    clipboard := "keep"
    cur_modifiers := []
    display_brightness := 1
    master_edgehist := dirmap.const init_edge_state }

set_option maxHeartbeats 1000000 in
/-- **C9, counterexample.**  A null switch (`NT_NONE` resolves to the
focused remote 0) with show-nullswitch = YES and a full outbound
channel: the brightness indication overflows the channel, `fail_remote`
moves focus to the master mid-call, the stale null-switch test then
fails, and `focus_node` performs a full switch back onto the now-FAILED
remote — returning did_switch = 1 with the focus state changed, against
the claim's unconditional did_switch = 0 and unchanged focus. -/
theorem c9_null_switch_counterexample :
    focus_node 16 c9_cfg c9_state NT_NONE [] false 77 = some (c9_final, 1) ∧
    c9_final.focused_remote = some 0 ∧
    (c9_final.remotes[0]?).map Remote.state = some CS_FAILED := by
  refine ⟨by decide, by decide, by decide⟩

set_option maxHeartbeats 1000000 in
/-- **C9, amended.**  (1) `NT_NONE` resolves to the focused node and a
CONNECTED `NT_REMOTE` to that remote.  (2) On a null switch with no
indication due (show-nullswitch neither YES nor HOTKEYONLY-with-hotkey)
`focus_node` returns the state unchanged with did_switch = 0.  (3) On a
null switch whose brightness indication completes without moving the
focus, the result is exactly the indication's state with did_switch = 0
— no grab, ungrab, warp, clipboard or modifier transfer.  (4, 5) In the
concrete no-overflow scenario the null switch returns 0, and focus,
grab, mouse position, clipboard and modifiers are untouched; the only
effect is the SETBRIGHTNESS pair of the indication on the focused
remote. -/
theorem c9_null_switch_amended :
    (∀ fuel cfg s modkeys hk now,
      focus_node (fuel + 1) cfg s NT_NONE modkeys hk now =
        focus_node_body fuel cfg s s.focused_remote modkeys hk now) ∧
    (∀ fuel cfg s ri r modkeys hk now, s.remotes[ri]? = some r →
      r.state = CS_CONNECTED →
      focus_node (fuel + 1) cfg s (NT_REMOTE ri) modkeys hk now =
        focus_node_body fuel cfg s (some ri) modkeys hk now) ∧
    (∀ fuel cfg s modkeys hk now,
      ¬(cfg.show_nullswitch = NS_YES ∨
          (cfg.show_nullswitch = NS_HOTKEYONLY ∧ hk = true)) →
      focus_node_body (fuel + 1) cfg s s.focused_remote modkeys hk now =
        some (s, 0)) ∧
    (∀ fuel cfg s modkeys hk now s₁,
      (cfg.show_nullswitch = NS_YES ∨
        (cfg.show_nullswitch = NS_HOTKEYONLY ∧ hk = true)) →
      indicate_switch fuel cfg s s.focused_remote s.focused_remote now = some s₁ →
      s₁.focused_remote = s.focused_remote →
      focus_node_body (fuel + 1) cfg s s.focused_remote modkeys hk now =
        some (s₁, 0)) ∧
    (focus_node 12 c9ok_cfg c9ok_state NT_NONE [] false 5 = some (c9ok_final, 0)) ∧
    (c9ok_final.focused_remote = c9ok_state.focused_remote ∧
      c9ok_final.grabbed = c9ok_state.grabbed ∧
      c9ok_final.mousepos = c9ok_state.mousepos ∧
      c9ok_final.mousepos_screenrel = c9ok_state.mousepos_screenrel ∧
      c9ok_final.clipboard = c9ok_state.clipboard ∧
      c9ok_final.cur_modifiers = c9ok_state.cur_modifiers ∧
      (c9ok_final.remotes[0]?).map (fun r => (r.state,
          r.msgchan.map (fun m => (m.type, m.brightness)),
          r.scheduled_messages.map (fun m => (m.type, m.brightness, m.sendtime)))) =
        some (CS_CONNECTED, [(MT_SETBRIGHTNESS, 0)], [(MT_SETBRIGHTNESS, 1, 15)])) := by
  refine ⟨fun fuel cfg s modkeys hk now => rfl, ?_, ?_, ?_, by decide, by decide⟩
  · intro fuel cfg s ri r modkeys hk now hr hconn
    rw [focus_node]
    simp [hr, hconn]
  · intro fuel cfg s modkeys hk now hcond
    rw [focus_node_body]
    rw [if_neg ?hc]
    case hc =>
      intro h
      rcases h with h | h
      · exact h rfl
      · exact hcond h
    simp
  · intro fuel cfg s modkeys hk now s₁ hcond hind hfoc
    rw [focus_node_body]
    rw [if_pos (Or.inr hcond), hind]
    simp only [Option.bind_eq_bind, Option.some_bind]
    rw [if_pos hfoc.symm]

theorem c9_null_switch_amended_witness :
    ¬(c7_cfg.show_nullswitch = NS_YES ∨
        (c7_cfg.show_nullswitch = NS_HOTKEYONLY ∧ false = true)) ∧
    focus_node_body (10 + 1) c7_cfg c7_state c7_state.focused_remote [] false 0 =
      some (c7_state, 0) :=
  ⟨by decide,
    c9_null_switch_amended.2.2.1 10 c7_cfg c7_state [] false 0 (by decide)⟩
/-! ### C1: the focused-remote invariant -/

/-- C1 configuration: no focus hint, no null-switch indication, outbound
backlog quota 1. -/
def c1_cfg : Config :=
  { show_nullswitch := NS_NO
    focus_hint := { type := FH_NONE, brightness := 1, duration := 0, fade_steps := 1 }
    mouseswitch := { type := MS_NONE, num := 0, window := 0 }
    master_neighbors := demo_nbrs
    send_backlog := 1 }

/-- The state after the single remote's READY is handled: CONNECTED, the
SETUP handshake still sitting in the outbound channel. -/
def c1_s1 : State := { init_state [demo_nbrs] with
  remotes := [{ initial_remote demo_nbrs with state := CS_CONNECTED }] }

/-- The state reached by the C1 run: the switch completed onto remote 0
although the mid-switch clipboard transfer overflowed the quota-1
channel and `fail_remote` put the remote in FAILED. -/
def c1_final : State :=
  { focused_remote := some 0
    remotes := [{ state := CS_FAILED
                  failcount := 1
                  next_reconnect_time := 500005
                  scheduled_messages := []
                  msgchan := []
                  neighbors := demo_nbrs
                  edgehist := dirmap.const init_edge_state
                  sshpid := -1 }]
    scheduled_calls := []
    saved_master_mousepos := { x := 0, y := 0 }
    grabbed := true
    mousepos := { x := 512, y := 384 }
    mousepos_screenrel := (0, 0)
    clipboard := ""
    cur_modifiers := []
    display_brightness := 1
    master_edgehist := dirmap.const init_edge_state }

set_option maxHeartbeats 1000000 in
/-- **C1.**  A reachable state in which the focused node is a remote that
is not CONNECTED, refuting the invariant.  From startup with one remote:
the remote's READY connects it (its SETUP handshake still queued), and a
hotkey switch to it then overflows the quota-1 outbound channel inside
`transfer_clipboard`; `fail_remote` disconnects the remote (focus is
still on the master at that instant, so no refocus happens), and
`focus_node` nevertheless completes the switch, leaving
`focused_remote` pointing at a FAILED remote. -/
theorem c1_focused_failed_reachable :
    Reachable c1_cfg [demo_nbrs] c1_final ∧
    c1_final.focused_remote = some 0 ∧
    (c1_final.remotes[0]?).map Remote.state = some CS_FAILED := by
  refine ⟨?_, by decide, by decide⟩
  have h1 : Step c1_cfg (init_state [demo_nbrs]) c1_s1 :=
    Step.recv (init_state [demo_nbrs]) 0 0 20 (initial_remote demo_nbrs)
      { type := MT_READY } c1_s1 (by decide) (by decide) (by decide)
  have h2 : Step c1_cfg c1_s1 c1_final :=
    Step.hotkey_switchto c1_s1 (NT_REMOTE 0) [] 5 16 c1_final 1 (by decide)
  exact Relation.ReflTransGen.tail (Relation.ReflTransGen.single h1) h2
